import Mathlib

/-!
Verification development for the data-ingestion worker.

The definitions below are a shallow embedding of the worker's source:
* `src/validators/row_validator.py`  (email normalization, row validation)
* `src/repositories/staging_repository.py` (row hashing, staging operations)
* `src/repositories/issue_repository.py` (issue upsert, linking, auto-resolution)
* `src/repositories/contact_repository.py` (existence checks, contact creation)
* `src/repositories/job_repository.py` (job status/metadata updates)
* `src/processor.py` (initial flow, reprocess flow, consolidation)
* `src/consumer.py` (message dispatch outcome)
* `src/services/s3_service.py` (encoding probe, delimiter probe)

Database tables are modelled as in-memory lists of records and every
repository operation is a pure function on that state, mirroring the
Python statement by statement.  Machine integers are `Nat` with explicit
`% 2 ^ 32` where the SHA-256 arithmetic overflows.
-/

namespace Ingest

/-! ## Python string primitives -/

/-- The characters Python's `str.strip()` removes (ASCII whitespace). -/
def pyIsSpace (c : Char) : Bool :=
  c == ' ' || c == '\t' || c == '\n' || c == '\x0d' || c == Char.ofNat 11 || c == Char.ofNat 12

/-- Python `s.strip()`: drop leading and trailing whitespace. -/
def pyStrip (s : String) : String :=
  String.mk (((s.toList.dropWhile pyIsSpace).reverse.dropWhile pyIsSpace).reverse)

/-- Python `s.lower()` on the ASCII range handled by this code base. -/
def pyLower (s : String) : String :=
  String.mk (s.toList.map Char.toLower)

/-- A CSV row / Python dict with string keys and string values. -/
abbrev Row := List (String × String)

/-- Python `dict.get(key)`: `none` when the key is absent. -/
def dictGet : Row → String → Option String
  | [], _ => none
  | (k, v) :: rest, key => if k = key then some v else dictGet rest key

/-- Python `row.get(key, "")`. -/
def dictGetD (row : Row) (key : String) : String :=
  (dictGet row key).getD ""

/-! ## Row validator (`src/validators/row_validator.py`) -/

/-- `IssueType` enumeration from `src/models/issue.py`. -/
inductive IssueType where
  | DUPLICATE_EMAIL
  | INVALID_EMAIL
  | EXISTING_EMAIL
  | MISSING_REQUIRED_FIELD
deriving DecidableEq

/-- `ValidationResult` from `src/validators/row_validator.py`: either valid, or
invalid with an issue type and a message. -/
inductive ValidationResult where
  | valid : ValidationResult
  | invalid : IssueType → String → ValidationResult
deriving DecidableEq

/-- `ValidationResult.is_valid`. -/
def ValidationResult.is_valid : ValidationResult → Bool
  | .valid => true
  | .invalid _ _ => false

/-- `ValidationResult.issue_type`. -/
def ValidationResult.issueTypeOf : ValidationResult → Option IssueType
  | .valid => none
  | .invalid t _ => some t

/-- `RowValidator.REQUIRED_FIELDS`. -/
def REQUIRED_FIELDS : List String := ["email", "first_name", "last_name", "company"]

/-- `RowValidator.normalize_email`: empty stays empty, otherwise lowercase then strip. -/
def normalize_email (email : String) : String :=
  if email = "" then "" else pyStrip (pyLower email)

/-- Character class `[a-zA-Z0-9._%+-]` of the local part of `EMAIL_PATTERN`. -/
def isLocalChar (c : Char) : Bool :=
  c.isAlpha || c.isDigit || c == '.' || c == '_' || c == '%' || c == '+' || c == '-'

/-- Character class `[a-zA-Z0-9.-]` of the domain part of `EMAIL_PATTERN`. -/
def isDomainChar (c : Char) : Bool :=
  c.isAlpha || c.isDigit || c == '.' || c == '-'

/-- `RowValidator.EMAIL_PATTERN.match(s)` as a decision procedure.  The pattern
`^[a-zA-Z0-9._%+-]+@[a-zA-Z0-9.-]+\.[a-zA-Z]{2,}$` matches exactly when the
string splits at its first `@` into a nonempty local part over the local class,
and the remainder splits at its last `.` into a nonempty domain over the domain
class and a trailing run of at least two letters.  (The local and domain
classes exclude `@`, and the trailing run excludes `.`, so the first-`@` /
last-`.` split is the only decomposition a backtracking engine could accept.) -/
def emailMatch (s : String) : Bool :=
  let cs := s.toList
  let loc := cs.takeWhile (fun c => c ≠ '@')
  match cs.dropWhile (fun c => c ≠ '@') with
  | '@' :: dom =>
      let revd := dom.reverse
      let tld := (revd.takeWhile (fun c => c ≠ '.')).reverse
      match revd.dropWhile (fun c => c ≠ '.') with
      | '.' :: dRev =>
          let d := dRev.reverse
          !loc.isEmpty && loc.all isLocalChar &&
            !d.isEmpty && d.all isDomainChar &&
            decide (2 ≤ tld.length) && tld.all Char.isAlpha
      | _ => false
  | _ => false

/-- The value Python computes for a required field:
`row_data.get(field, "").strip() if row_data.get(field) else ""`. -/
def fieldValue (row : Row) (f : String) : String :=
  match dictGet row f with
  | some v => if v = "" then "" else pyStrip v
  | none => ""

/-- A required field fails the step-1 check (`if not value`). -/
def fieldMissing (row : Row) (f : String) : Bool :=
  fieldValue row f = ""

/-- `RowValidator.validate_row`, rule for rule:
1. first required field that is absent/empty/whitespace-only wins;
2. then the email pattern;
3. then membership in the duplicate set;
4. then membership in the existing set. -/
def validate_row (row : Row) (duplicate_emails existing_emails : List String) :
    ValidationResult :=
  match REQUIRED_FIELDS.find? (fun f => fieldMissing row f) with
  | some f => .invalid .MISSING_REQUIRED_FIELD ("Missing required field: " ++ f)
  | none =>
    let email := pyStrip (dictGetD row "email")
    if !emailMatch email then
      .invalid .INVALID_EMAIL ("Invalid email format: " ++ email)
    else
      let ne := normalize_email email
      if duplicate_emails.contains ne then
        .invalid .DUPLICATE_EMAIL ("Duplicate email in CSV: " ++ email)
      else if existing_emails.contains ne then
        .invalid .EXISTING_EMAIL ("Email already exists in contacts: " ++ email)
      else
        .valid

/-- The claim's reading of "absent, empty, or whitespace-only". -/
def specBlank (row : Row) (f : String) : Prop :=
  match dictGet row f with
  | none => True
  | some v => pyStrip v = ""

instance (row : Row) (f : String) : Decidable (specBlank row f) := by
  unfold specBlank
  cases dictGet row f <;> infer_instance

/-! ## SHA-256 (`hashlib.sha256`), over `Nat` reduced mod `2 ^ 32` -/

/-- Right rotation of a 32-bit word. -/
def rotr (n x : Nat) : Nat := ((x >>> n) ||| (x <<< (32 - n))) % 4294967296

/-- Small sigma-0 of the SHA-256 message schedule. -/
def sigma0 (x : Nat) : Nat := rotr 7 x ^^^ rotr 18 x ^^^ (x >>> 3)

/-- Small sigma-1 of the SHA-256 message schedule. -/
def sigma1 (x : Nat) : Nat := rotr 17 x ^^^ rotr 19 x ^^^ (x >>> 10)

/-- Big sigma-0 of the SHA-256 compression function. -/
def bigSigma0 (x : Nat) : Nat := rotr 2 x ^^^ rotr 13 x ^^^ rotr 22 x

/-- Big sigma-1 of the SHA-256 compression function. -/
def bigSigma1 (x : Nat) : Nat := rotr 6 x ^^^ rotr 11 x ^^^ rotr 25 x

/-- SHA-256 choice function. -/
def shaCh (e f g : Nat) : Nat := (e &&& f) ^^^ ((e ^^^ 4294967295) &&& g)

/-- SHA-256 majority function. -/
def shaMaj (a b c : Nat) : Nat := (a &&& b) ^^^ (a &&& c) ^^^ (b &&& c)

/-- The 64 SHA-256 round constants. -/
def shaK : List Nat :=
  [1116352408, 1899447441, 3049323471, 3921009573, 961987163,
   1508970993, 2453635748, 2870763221, 3624381080, 310598401,
   607225278, 1426881987, 1925078388, 2162078206, 2614888103,
   3248222580, 3835390401, 4022224774, 264347078, 604807628,
   770255983, 1249150122, 1555081692, 1996064986, 2554220882,
   2821834349, 2952996808, 3210313671, 3336571891, 3584528711,
   113926993, 338241895, 666307205, 773529912, 1294757372,
   1396182291, 1695183700, 1986661051, 2177026350, 2456956037,
   2730485921, 2820302411, 3259730800, 3345764771, 3516065817,
   3600352804, 4094571909, 275423344, 430227734, 506948616,
   659060556, 883997877, 958139571, 1322822218, 1537002063,
   1747873779, 1955562222, 2024104815, 2227730452, 2361852424,
   2428436474, 2756734187, 3204031479, 3329325298]

/-- The SHA-256 initial hash value. -/
def shaH0 : List Nat :=
  [1779033703, 3144134277, 1013904242, 2773480762,
   1359893119, 2600822924, 528734635, 1541459225]

/-- Merkle–Damgård padding: `0x80`, zeros to 56 mod 64, 8-byte big-endian bit length. -/
def padMessage (msg : List Nat) : List Nat :=
  let len := msg.length
  let k := (119 - len % 64) % 64
  let bitLen := len * 8
  msg ++ [0x80] ++ List.replicate k 0 ++
    ((List.range 8).reverse.map (fun i => (bitLen >>> (8 * i)) % 256))

/-- Split a byte list into 64-byte chunks (`fuel` bounds the recursion by the
list length so the definition is structural and kernel-reducible). -/
def chunks64Aux : Nat → List Nat → List (List Nat)
  | 0, _ => []
  | _ + 1, [] => []
  | fuel + 1, b :: l => ((b :: l).take 64) :: chunks64Aux fuel ((b :: l).drop 64)

/-- Split a byte list into 64-byte chunks. -/
def chunks64 (l : List Nat) : List (List Nat) := chunks64Aux l.length l

/-- Pack bytes into big-endian 32-bit words, four at a time. -/
def word4 : List Nat → List Nat
  | b0 :: b1 :: b2 :: b3 :: rest =>
      (b0 * 16777216 + b1 * 65536 + b2 * 256 + b3) :: word4 rest
  | _ => []

/-- One SHA-256 compression step on a 64-byte block. -/
def processBlock (h : List Nat) (block : List Nat) : List Nat :=
  let w := (List.range 48).foldl
    (fun arr i =>
      let j := i + 16
      arr.push ((arr.getD (j - 16) 0 + sigma0 (arr.getD (j - 15) 0) +
        arr.getD (j - 7) 0 + sigma1 (arr.getD (j - 2) 0)) % 4294967296))
    (word4 block).toArray
  let st0 := (h.getD 0 0, h.getD 1 0, h.getD 2 0, h.getD 3 0,
              h.getD 4 0, h.getD 5 0, h.getD 6 0, h.getD 7 0)
  let stf := (List.range 64).foldl
    (fun st i =>
      let (a, b, c, d, e, f, g, hh) := st
      let t1 := (hh + bigSigma1 e + shaCh e f g + shaK.getD i 0 + w.getD i 0) % 4294967296
      let t2 := (bigSigma0 a + shaMaj a b c) % 4294967296
      ((t1 + t2) % 4294967296, a, b, c, (d + t1) % 4294967296, e, f, g))
    st0
  match stf with
  | (a, b, c, d, e, f, g, hh) =>
    [(h.getD 0 0 + a) % 4294967296, (h.getD 1 0 + b) % 4294967296,
     (h.getD 2 0 + c) % 4294967296, (h.getD 3 0 + d) % 4294967296,
     (h.getD 4 0 + e) % 4294967296, (h.getD 5 0 + f) % 4294967296,
     (h.getD 6 0 + g) % 4294967296, (h.getD 7 0 + hh) % 4294967296]

/-- Big-endian bytes of a 32-bit word. -/
def wordBytes (wd : Nat) : List Nat :=
  [wd / 16777216 % 256, wd / 65536 % 256, wd / 256 % 256, wd % 256]

/-- SHA-256 digest of a byte string, as 32 bytes. -/
def sha256bytes (msg : List Nat) : List Nat :=
  (((chunks64 (padMessage msg)).foldl processBlock shaH0).map wordBytes).flatten

/-- A nibble as a lowercase hex character. -/
def hexDigit (n : Nat) : Char :=
  if n < 10 then Char.ofNat (48 + n) else Char.ofNat (87 + n)

/-- A byte as two lowercase hex characters. -/
def byteToHex (b : Nat) : List Char := [hexDigit (b / 16), hexDigit (b % 16)]

/-- `hashlib.sha256(bytes).hexdigest()`. -/
def sha256hex (msg : List Nat) : String :=
  String.mk (((sha256bytes msg).map byteToHex).flatten)

/-! ## `json.dumps(..., sort_keys=True)` and the row hash
(`StagingRepository.generate_row_hash`) -/

/-- The JSON values the row-hash canonicalization uses: strings and integers. -/
inductive JsonVal where
  | str : String → JsonVal
  | num : Nat → JsonVal
deriving DecidableEq

/-- One escaped character of a JSON string, as `json.dumps` emits it with
`ensure_ascii=True` (inputs here are within the basic multilingual plane). -/
def jsonEscapeChar (c : Char) : List Char :=
  if c = '"' then ['\\', '"']
  else if c = '\\' then ['\\', '\\']
  else if c = '\n' then ['\\', 'n']
  else if c = '\t' then ['\\', 't']
  else if c = '\x0d' then ['\\', 'r']
  else if c = Char.ofNat 8 then ['\\', 'b']
  else if c = Char.ofNat 12 then ['\\', 'f']
  else if c.toNat < 32 || 128 ≤ c.toNat then
    '\\' :: 'u' :: [hexDigit (c.toNat / 4096 % 16), hexDigit (c.toNat / 256 % 16),
      hexDigit (c.toNat / 16 % 16), hexDigit (c.toNat % 16)]
  else [c]

/-- A JSON string literal with quotes and escaping. -/
def jsonStr (s : String) : String :=
  "\"" ++ String.mk ((s.toList.map jsonEscapeChar).flatten) ++ "\""

/-- Serialize one JSON value. -/
def jsonValStr : JsonVal → String
  | .str s => jsonStr s
  | .num n => Nat.repr n

/-- Lexicographic code-point comparison of character lists (Python string
`<=`, which `sorted` and `sort_keys` use). -/
def charListLe : List Char → List Char → Bool
  | [], _ => true
  | _ :: _, [] => false
  | a :: as, b :: bs =>
      if a.toNat < b.toNat then true
      else if b.toNat < a.toNat then false
      else charListLe as bs

/-- Python string `<=`. -/
def pyStrLe (s t : String) : Bool := charListLe s.toList t.toList

/-- Insert one pair into a key-sorted association list. -/
def insertByKey (p : String × JsonVal) :
    List (String × JsonVal) → List (String × JsonVal)
  | [] => [p]
  | q :: rest => if pyStrLe p.1 q.1 then p :: q :: rest else q :: insertByKey p rest

/-- Sort an association list by key (the effect of `sort_keys=True`). -/
def sortByKey (l : List (String × JsonVal)) : List (String × JsonVal) :=
  l.foldr insertByKey []

/-- Comma-separated `"key": value` members. -/
def jsonMembers : List (String × JsonVal) → String
  | [] => ""
  | [p] => jsonStr p.1 ++ ": " ++ jsonValStr p.2
  | p :: rest => jsonStr p.1 ++ ": " ++ jsonValStr p.2 ++ ", " ++ jsonMembers rest

/-- `json.dumps(obj, sort_keys=True)` for a flat string/int object, with the
default separators `", "` and `": "`. -/
def jsonDumpsSorted (obj : List (String × JsonVal)) : String :=
  "\x7b" ++ jsonMembers (sortByKey obj) ++ "\x7d"

/-- UTF-8 encoding of one character (`str.encode()`). -/
def utf8EncodeChar (c : Char) : List Nat :=
  let n := c.toNat
  if n < 128 then [n]
  else if n < 2048 then [192 + n / 64, 128 + n % 64]
  else if n < 65536 then [224 + n / 4096, 128 + n / 64 % 64, 128 + n % 64]
  else [240 + n / 262144, 128 + n / 4096 % 64, 128 + n / 64 % 64, 128 + n % 64]

/-- UTF-8 bytes of a string (`str.encode()`). -/
def strBytes (s : String) : List Nat :=
  (s.toList.map utf8EncodeChar).flatten

/-- `StagingRepository.generate_row_hash`: SHA-256 hex digest of the
sorted-keys JSON dump of the normalized map, exactly as the source builds it. -/
def generate_row_hash (job_id row_number : Nat) (row : Row) : String :=
  sha256hex (strBytes (jsonDumpsSorted
    [("job_id", .num job_id),
     ("row_number", .num row_number),
     ("email", .str (pyStrip (pyLower (dictGetD row "email")))),
     ("first_name", .str (pyStrip (dictGetD row "first_name"))),
     ("last_name", .str (pyStrip (dictGetD row "last_name"))),
     ("company", .str (pyStrip (dictGetD row "company")))]))

/-- The four field values that enter the row hash, after the normalization the
source applies (email lowercased and trimmed, the others trimmed). -/
def hashNormalizedFields (row : Row) : String × String × String × String :=
  (pyStrip (pyLower (dictGetD row "email")),
   pyStrip (dictGetD row "first_name"),
   pyStrip (dictGetD row "last_name"),
   pyStrip (dictGetD row "company"))

/-! ## Data model (`src/models/*.py`)

Each table is a list of records; autoincrement primary keys are modelled by
`freshId`.  `Staging`'s nullable text columns are represented by `String` with
`""` for SQL `NULL`: every read the processor performs (`or ""`, Python
truthiness, the four-field check in contact creation) identifies the two. -/

/-- `JobStatus` from `src/models/job.py`. -/
inductive JobStatus where
  | PENDING
  | PROCESSING
  | NEEDS_REVIEW
  | COMPLETED
  | FAILED
deriving DecidableEq

/-- `StagingStatus` from `src/models/staging.py`. -/
inductive StagingStatus where
  | READY
  | SUCCESS
  | DISCARD
  | ISSUE
deriving DecidableEq

/-- A row of the `jobs` table (timestamp columns are not modelled; no claim
reads them). -/
structure JobRec where
  id : Nat
  userId : String
  status : JobStatus
  totalRows : Nat
  processedRows : Nat
  issueCount : Nat
deriving DecidableEq

/-- A row of the `staging` table. -/
structure StagingRec where
  id : Nat
  jobId : Nat
  email : String
  firstName : String
  lastName : String
  company : String
  rowHash : String
  status : StagingStatus
deriving DecidableEq

/-- A row of the `issues` table.  `resolvedAt` stands for the timestamp column:
`some 0` when set, `none` when NULL (no claim compares clock values). -/
structure IssueRec where
  id : Nat
  jobId : Nat
  itype : IssueType
  key : String
  resolved : Bool
  description : Option String
  resolvedAt : Option Nat
  resolvedBy : Option String
  resolutionComment : Option String
deriving DecidableEq

/-- A row of the `issue_items` table. -/
structure IssueItemRec where
  id : Nat
  issueId : Nat
  stagingId : Nat
deriving DecidableEq

/-- A row of the `contacts` table.  NOTE: `src/models/contact.py` defines no
`contacts_user_id` column even though `src/repositories/contact_repository.py`
filters on `Contact.contacts_user_id` and constructs contacts with it (and the
spec's data model lists `user_id`); the column is modelled here as the
repository code uses it.  See claim C9 for the resulting defect report. -/
structure ContactRec where
  id : Nat
  stagingId : Nat
  userId : String
  email : String
  firstName : String
  lastName : String
  company : String
deriving DecidableEq

/-- The five tables. -/
structure DB where
  jobs : List JobRec
  stagings : List StagingRec
  issues : List IssueRec
  issueItems : List IssueItemRec
  contacts : List ContactRec
deriving DecidableEq

/-- Update the first element satisfying `p` (SQLAlchemy `query(...).first()`
followed by attribute assignment and commit). -/
def updateFirst (p : α → Bool) (f : α → α) : List α → List α
  | [] => []
  | x :: xs => if p x then f x :: xs else x :: updateFirst p f xs

/-- A fresh autoincrement id: one more than the largest id in use. -/
def freshId (ids : List Nat) : Nat := ids.foldr max 0 + 1

/-! ## Repositories (`src/repositories/*.py`) -/

/-- `JobRepository.get_by_id`. -/
def get_by_id (db : DB) (job_id : Nat) : Option JobRec :=
  db.jobs.find? (fun j => j.id == job_id)

/-- `JobRepository.update_status` (timestamp arguments are not modelled). -/
def update_status (db : DB) (job_id : Nat) (st : JobStatus) : DB :=
  let jobs2 := updateFirst (fun j => j.id == job_id)
    (fun j => { j with status := st }) db.jobs
  { db with jobs := jobs2 }

/-- `JobRepository.update_metadata`: each field is written only when passed. -/
def update_metadata (db : DB) (job_id : Nat)
    (total processed issues : Option Nat) : DB :=
  let jobs2 := updateFirst (fun j => j.id == job_id)
    (fun j => { j with
      totalRows := total.getD j.totalRows,
      processedRows := processed.getD j.processedRows,
      issueCount := issues.getD j.issueCount }) db.jobs
  { db with jobs := jobs2 }

/-- `StagingRepository.has_staging_records`. -/
def has_staging_records (db : DB) (job_id : Nat) : Bool :=
  db.stagings.any (fun s => s.jobId == job_id)

/-- `StagingRepository.get_by_job_id`. -/
def get_staging_by_job (db : DB) (job_id : Nat) : List StagingRec :=
  db.stagings.filter (fun s => s.jobId == job_id)

/-- `StagingRepository.exists_by_hash`. -/
def exists_by_hash (db : DB) (job_id : Nat) (row_hash : String) : Bool :=
  db.stagings.any (fun s => s.jobId == job_id && s.rowHash == row_hash)

/-- `StagingRepository.create`. -/
def staging_create (db : DB) (job_id : Nat)
    (email first_name last_name company row_hash : String)
    (st : StagingStatus) : StagingRec × DB :=
  let s : StagingRec :=
    { id := freshId (db.stagings.map (fun x => x.id)), jobId := job_id,
      email := email, firstName := first_name, lastName := last_name,
      company := company, rowHash := row_hash, status := st }
  (s, { db with stagings := db.stagings ++ [s] })

/-- `StagingRepository.update_status`. -/
def staging_update_status (db : DB) (staging_id : Nat) (st : StagingStatus) : DB :=
  let stagings2 := updateFirst (fun s => s.id == staging_id)
    (fun s => { s with status := st }) db.stagings
  { db with stagings := stagings2 }

/-- `StagingRepository.get_ready_for_consolidation`. -/
def get_ready_for_consolidation (db : DB) (job_id : Nat) : List StagingRec :=
  db.stagings.filter (fun s => s.jobId == job_id && s.status == StagingStatus.READY)

/-- The lookup inside `IssueRepository.get_or_create`. -/
def issue_find (db : DB) (job_id : Nat) (t : IssueType) (key : String) :
    Option IssueRec :=
  db.issues.find? (fun i => i.jobId == job_id && i.itype == t && i.key == key)

/-- `IssueRepository.get_or_create`: return the existing issue for
`(job_id, type, key)` or append a new unresolved one. -/
def issue_get_or_create (db : DB) (job_id : Nat) (t : IssueType) (key : String)
    (description : Option String) : IssueRec × DB :=
  match issue_find db job_id t key with
  | some i => (i, db)
  | none =>
    let i : IssueRec :=
      { id := freshId (db.issues.map (fun x => x.id)), jobId := job_id,
        itype := t, key := key, resolved := false, description := description,
        resolvedAt := none, resolvedBy := none, resolutionComment := none }
    (i, { db with issues := db.issues ++ [i] })

/-- `IssueRepository.link_staging_to_issue`: return the existing link or append
a new one. -/
def link_staging_to_issue (db : DB) (issue_id staging_id : Nat) :
    IssueItemRec × DB :=
  match db.issueItems.find?
      (fun it => it.issueId == issue_id && it.stagingId == staging_id) with
  | some it => (it, db)
  | none =>
    let it : IssueItemRec :=
      { id := freshId (db.issueItems.map (fun x => x.id)),
        issueId := issue_id, stagingId := staging_id }
    (it, { db with issueItems := db.issueItems ++ [it] })

/-- `IssueRepository.get_issues_for_staging` (join through `issue_items`). -/
def get_issues_for_staging (db : DB) (staging_id : Nat) : List IssueRec :=
  db.issues.filter (fun i =>
    db.issueItems.any (fun it => it.issueId == i.id && it.stagingId == staging_id))

/-- `IssueRepository.mark_as_resolved` (the `resolved_by`/`comment` writes are
guarded by Python truthiness as in the source). -/
def mark_as_resolved (db : DB) (issue_id : Nat)
    (resolved_by resolution_comment : String) : DB :=
  let issues2 := updateFirst (fun i => i.id == issue_id)
    (fun i => { i with
      resolved := true,
      resolvedAt := some 0,
      resolvedBy := if resolved_by = "" then i.resolvedBy else some resolved_by,
      resolutionComment :=
        if resolution_comment = "" then i.resolutionComment
        else some resolution_comment }) db.issues
  { db with issues := issues2 }

/-- The staging ids linked to an issue (`issue.issue_items`). -/
def issue_linked_staging_ids (db : DB) (issue_id : Nat) : List Nat :=
  (db.issueItems.filter (fun it => it.issueId == issue_id)).map (fun it => it.stagingId)

/-- The count query shared by `check_and_mark_resolved_if_all_staging_resolved`
and the processor's un-resolve guard: linked staging rows whose status is ISSUE. -/
def unresolved_staging_count (db : DB) (staging_ids : List Nat) : Nat :=
  (db.stagings.filter (fun s =>
    staging_ids.contains s.id && s.status == StagingStatus.ISSUE)).length

/-- `IssueRepository.check_and_mark_resolved_if_all_staging_resolved`. -/
def check_and_mark_resolved (db : DB) (issue_id : Nat) : Bool × DB :=
  let staging_ids := issue_linked_staging_ids db issue_id
  if staging_ids.isEmpty then (false, db)
  else if unresolved_staging_count db staging_ids = 0 then
    (true, mark_as_resolved db issue_id "system"
      "All related staging records resolved during reprocessing")
  else (false, db)

/-- `ContactRepository.get_existing_emails` as shipped: the empty-list guard
returns the empty set without touching the model, but any non-empty email
list evaluates `Contact.contacts_user_id` (contact_repository.py:36), an
attribute `src/models/contact.py` never defines, so the call raises
`AttributeError` before the query runs — modelled as `none`.  The callers'
`except` handlers turn this into a FAILED job. -/
def get_existing_emails (db : DB) (emails : List String) (user_id : String) :
    Option (List String) :=
  if emails.isEmpty then some [] else none

/-- The per-user query `get_existing_emails` is documented to perform and
would perform were the `contacts_user_id` column present on the model: the
given emails that exist as contacts of this user (set semantics via `dedup`).
This is the intended behavior claim C9 measures the shipped code against. -/
def get_existing_emails_fixed (db : DB) (emails : List String) (user_id : String) :
    List String :=
  if emails.isEmpty then []
  else ((db.contacts.filter (fun c =>
    emails.contains c.email && c.userId == user_id)).map (fun c => c.email)).dedup

/-- The two ways `ContactRepository.create_from_staging` raises: the explicit
`ValueError` for a falsy field or user id (caught by the batch loop), and the
`TypeError` from `Contact(contacts_user_id=...)` (contact_repository.py:65-72)
— a constructor keyword the model class does not define — which no caller
catches. -/
inductive ContactCreateError where
  | valueError
  | typeError
deriving DecidableEq

/-- `ContactRepository.create_from_staging` as shipped: a falsy staging field
or user id raises `ValueError`; every record passing those guards reaches the
`Contact(contacts_user_id=...)` construction and raises `TypeError` (the model
class lacks the column).  No call returns a contact. -/
def create_from_staging (db : DB) (s : StagingRec) (user_id : String) :
    Except ContactCreateError (ContactRec × DB) :=
  if s.email = "" || s.firstName = "" || s.lastName = "" || s.company = "" ||
      user_id = "" then .error .valueError
  else .error .typeError

/-- The loop of `batch_create_from_staging`: each record is created in turn,
`ValueError` is caught (log and skip), and any other exception propagates. -/
def batch_create_aux (u : String) :
    List StagingRec → List ContactRec × DB →
    Except ContactCreateError (List ContactRec × DB)
  | [], acc => .ok acc
  | s :: ss, acc =>
    match create_from_staging acc.2 s u with
    | .ok (c, db2) => batch_create_aux u ss (acc.1 ++ [c], db2)
    | .error .valueError => batch_create_aux u ss acc
    | .error .typeError => .error .typeError

/-- `ContactRepository.batch_create_from_staging`: loop over the records,
catching only `ValueError`; the `TypeError` from the contact construction
reaches the caller. -/
def batch_create_from_staging (db : DB) (ss : List StagingRec)
    (user_id : String) : Except ContactCreateError (List ContactRec × DB) :=
  batch_create_aux user_id ss ([], db)

/-! ## Processor (`src/processor.py`)

The per-row `except` blocks of the loops (log, skip, continue) never fire
because every operation the loop bodies perform is total; the outer `except`
blocks (set the job FAILED and re-raise) fire at the explicit `raise
ValueError` sites, at the `AttributeError` the existence preload raises for a
non-empty email set, and at the `TypeError` the contact construction raises
during consolidation — each modelled as a FAILED transition at the point the
exception escapes.  Timestamps are not modelled. -/

/-- `Processor._identify_duplicate_emails`: normalized emails of rows with a
non-empty (after strip) email that occur more than once. -/
def identify_duplicate_emails (rows : List Row) : List String :=
  let norms := (rows.filter (fun r => !(pyStrip (dictGetD r "email") == ""))).map
    (fun r => normalize_email (pyStrip (dictGetD r "email")))
  (norms.filter (fun e => norms.count e > 1)).dedup

/-- The row map `_process_reprocessing` rebuilds from a staging record
(`staging.staging_email or ""`, etc.). -/
def buildRowData (s : StagingRec) : Row :=
  [("email", s.email), ("first_name", s.firstName),
   ("last_name", s.lastName), ("company", s.company)]

/-- `Processor._consolidate`: with no READY rows the job is COMPLETED
directly; otherwise the batch contact creation runs first — in the shipped
source its `TypeError` escapes to `_consolidate`'s handler, which marks the
job FAILED — and only a successful batch is followed by the SUCCESS updates
and COMPLETED. -/
def consolidate (db : DB) (job_id : Nat) : DB :=
  match get_by_id db job_id with
  | none => update_status db job_id .FAILED
  | some job =>
    let ready := get_ready_for_consolidation db job_id
    if ready.isEmpty then update_status db job_id .COMPLETED
    else
      match batch_create_from_staging db ready job.userId with
      | .error _ => update_status db job_id .FAILED
      | .ok (_, db1) =>
        let db2 := ready.foldl (fun d s => staging_update_status d s.id .SUCCESS) db1
        update_status db2 job_id .COMPLETED

/-- One iteration of the `_process_initial` row loop.  The accumulator carries
the database and the local `processed_count` and `issue_count`. -/
def initialRowStep (job_id : Nat) (dup exist : List String)
    (acc : DB × Nat × Nat) (numbered : Nat × Row) : DB × Nat × Nat :=
  let (db, processed, issues) := acc
  let (row_number, row_data) := numbered
  let row_hash := generate_row_hash job_id row_number row_data
  if exists_by_hash db job_id row_hash then acc
  else
    let created := staging_create db job_id (dictGetD row_data "email")
      (dictGetD row_data "first_name") (dictGetD row_data "last_name")
      (dictGetD row_data "company") row_hash .ISSUE
    let staging := created.1
    let db1 := created.2
    match validate_row row_data dup exist with
    | .valid =>
        (staging_update_status db1 staging.id .READY, processed + 1, issues)
    | .invalid t msg =>
        let ne := normalize_email (dictGetD row_data "email")
        let issue_key := if ne == "" then "row_" ++ Nat.repr row_number else ne
        let got := issue_get_or_create db1 job_id t issue_key (some msg)
        let db3 := (link_staging_to_issue got.2 got.1.id staging.id).2
        (db3, processed + 1, issues + 1)

/-- Number rows from 1 as `enumerate(rows, start=1)` does. -/
def enumerate1 : List Row → List (Nat × Row) :=
  fun rows => (List.range rows.length).zip rows |>.map (fun p => (p.1 + 1, p.2))

/-- The tail of `_process_initial` once the pre-index sets are built: the row
loop, the metadata write, and the NEEDS_REVIEW/consolidation decision. -/
def initialFinish (db : DB) (job_id : Nat) (dup exist : List String)
    (rows : List Row) : DB :=
  let folded := (enumerate1 rows).foldl (initialRowStep job_id dup exist) (db, 0, 0)
  let db3 := update_metadata folded.1 job_id
    (some rows.length) (some folded.2.1) (some folded.2.2)
  if folded.2.2 > 0 then update_status db3 job_id .NEEDS_REVIEW
  else consolidate db3 job_id

/-- Routing of the existence preload in `_process_initial`: the
`AttributeError` raised for a non-empty email set escapes to the flow's
handler, which marks the job FAILED (processor.py:283-290); only the
empty-set early return reaches the row loop. -/
def initialWithExist (db : DB) (job_id : Nat) (dup : List String)
    (oexist : Option (List String)) (rows : List Row) : DB :=
  match oexist with
  | none => update_status db job_id .FAILED
  | some exist => initialFinish db job_id dup exist rows

/-- `Processor._process_initial`. -/
def process_initial (db : DB) (job_id : Nat) (rows : List Row) : DB :=
  let db := update_status db job_id .PROCESSING
  if rows.isEmpty then update_status db job_id .FAILED
  else
    let dup := identify_duplicate_emails rows
    match get_by_id db job_id with
    | none => update_status db job_id .FAILED
    | some job =>
      let all_emails := ((rows.filter (fun r => !(dictGetD r "email" == ""))).map
        (fun r => normalize_email (dictGetD r "email"))).dedup
      initialWithExist db job_id dup
        (get_existing_emails db all_emails job.userId) rows

/-- The field writes of the processor's un-resolve branch: clear `resolved`,
`resolved_at`, `resolved_by`, `resolution_comment`. -/
def clearResolution (i : IssueRec) : IssueRec :=
  { i with
    resolved := false,
    resolvedAt := none,
    resolvedBy := none,
    resolutionComment := none }

/-- The local counters of the `_process_reprocessing` loop. -/
structure FlowCounts where
  processed : Nat
  issues : Nat
  ready : Nat
  discards : Nat
deriving DecidableEq

/-- One iteration of the `_process_reprocessing` loop over the staging
snapshot, statement for statement:
* DISCARD rows are skipped;
* a valid row is set READY and each of its still-unresolved linked issues goes
  through `check_and_mark_resolved`;
* an invalid row upserts the issue keyed by its normalized email (else
  `staging_<id>`), un-resolves a previously resolved issue only when some row
  among the issue's currently linked staging rows has status ISSUE (counted
  before this row's status is written), links, then sets the row ISSUE. -/
def reprocessRowStep (job_id : Nat) (dup exist : List String)
    (acc : DB × FlowCounts) (s : StagingRec) : DB × FlowCounts :=
  let (db, c) := acc
  if s.status == .DISCARD then (db, { c with discards := c.discards + 1 })
  else
    let row_data := buildRowData s
    match validate_row row_data dup exist with
    | .valid =>
        let db1 := staging_update_status db s.id .READY
        let related := get_issues_for_staging db1 s.id
        let db2 := related.foldl
          (fun d i => if i.resolved then d else (check_and_mark_resolved d i.id).2) db1
        (db2, { c with ready := c.ready + 1, processed := c.processed + 1 })
    | .invalid t msg =>
        let ne := normalize_email (dictGetD row_data "email")
        let issue_key := if ne == "" then "staging_" ++ Nat.repr s.id else ne
        let got := issue_get_or_create db job_id t issue_key (some msg)
        let issue := got.1
        let db1 := got.2
        let db2 :=
          if issue.resolved then
            let staging_ids := issue_linked_staging_ids db1 issue.id
            if unresolved_staging_count db1 staging_ids > 0 then
              let issues2 := updateFirst (fun i => i.id == issue.id)
                clearResolution db1.issues
              { db1 with issues := issues2 }
            else db1
          else db1
        let db3 := (link_staging_to_issue db2 issue.id s.id).2
        let db4 := staging_update_status db3 s.id .ISSUE
        (db4, { c with issues := c.issues + 1, processed := c.processed + 1 })

/-- The tail of `_process_reprocessing` once the pre-index sets are built: the
staging loop, the metadata write, and the NEEDS_REVIEW/consolidation decision. -/
def reprocessFinish (db : DB) (job_id : Nat) (dup exist : List String)
    (snapshot : List StagingRec) : DB :=
  let folded := snapshot.foldl (reprocessRowStep job_id dup exist)
    (db, ⟨0, 0, 0, 0⟩)
  let db3 := update_metadata folded.1 job_id
    none (some folded.2.processed) (some folded.2.issues)
  if folded.2.issues > 0 then update_status db3 job_id .NEEDS_REVIEW
  else consolidate db3 job_id

/-- Routing of the existence preload in `_process_reprocessing`: as in the
initial flow, a non-empty email set crashes the preload and the handler marks
the job FAILED; the empty-set early return reaches the staging loop. -/
def reprocessWithExist (db : DB) (job_id : Nat) (dup : List String)
    (oexist : Option (List String)) (snapshot : List StagingRec) : DB :=
  match oexist with
  | none => update_status db job_id .FAILED
  | some exist => reprocessFinish db job_id dup exist snapshot

/-- `Processor._process_reprocessing`. -/
def process_reprocessing (db : DB) (job_id : Nat) : DB :=
  let db := update_status db job_id .PROCESSING
  let snapshot := get_staging_by_job db job_id
  if snapshot.isEmpty then update_status db job_id .FAILED
  else
    match get_by_id db job_id with
    | none => update_status db job_id .FAILED
    | some job =>
      let nonDiscard := snapshot.filter (fun s => !(s.status == StagingStatus.DISCARD))
      let all_emails := ((nonDiscard.filter (fun s => !(s.email == ""))).map
        (fun s => normalize_email s.email)).dedup
      let norms := (nonDiscard.filter (fun s => !(s.email == ""))).map
        (fun s => normalize_email s.email)
      let dup := (norms.filter (fun e => norms.count e > 1)).dedup
      reprocessWithExist db job_id dup
        (get_existing_emails db all_emails job.userId) snapshot

/-- `Processor.process_job`: dispatch on job existence, COMPLETED duplicates,
and the presence of staging records.  `rows` is the decoded CSV the blob-store
collaborator returns for the message's object key. -/
def process_job (db : DB) (job_id : Nat) (rows : List Row) : DB :=
  match get_by_id db job_id with
  | none => db
  | some job =>
    if job.status == .COMPLETED then db
    else if has_staging_records db job_id then process_reprocessing db job_id
    else process_initial db job_id rows

/-! ## Consumer (`src/consumer.py`)

`SQSConsumer._process_message` after `json.loads`: the embedding starts from
the parse result (queue primitives and the JSON grammar are collaborators).
`json.JSONDecodeError` is the only exception the dedicated delete-handler
catches; the `ValueError` raised for a missing/falsy `job_id`/`s3_key` is a
plain `ValueError`, so it falls through to the generic `except Exception`
handler, which logs and re-raises without deleting. -/

/-- A decoded JSON value as Python hands it to the consumer (arrays/objects
appear only with their size, which is all truthiness inspects). -/
inductive JVal where
  | jnull
  | jbool : Bool → JVal
  | jnum : Int → JVal
  | jstr : String → JVal
  | jarr : Nat → JVal
  | jobj : Nat → JVal
deriving DecidableEq

/-- Python truthiness of a decoded JSON value. -/
def jvalTruthy : JVal → Bool
  | .jnull => false
  | .jbool b => b
  | .jnum n => !(n == 0)
  | .jstr s => !(s == "")
  | .jarr n => !(n == 0)
  | .jobj n => !(n == 0)

/-- `message_data.get(key)` over a JSON object. -/
def lookupJ : List (String × JVal) → String → Option JVal
  | [], _ => none
  | (k, v) :: rest, key => if k = key then some v else lookupJ rest key

/-- `not message_data.get(key)` is true when the key is absent or its value is
falsy. -/
def optTruthy : Option JVal → Bool
  | none => false
  | some v => jvalTruthy v

/-- The result of `json.loads` on a message body: a decode error or a JSON
object. -/
inductive ParsedBody where
  | malformed
  | obj : List (String × JVal) → ParsedBody
deriving DecidableEq

/-- What one `_process_message` call does with the message. -/
structure MsgOutcome where
  deleted : Bool
  raised : Bool
  dispatched : Option (JVal × JVal)
deriving DecidableEq

/-- `SQSConsumer._process_message`, branch for branch.  `processing_ok` is
whether `Processor.process_job` returns without raising. -/
def process_message (body : ParsedBody) (processing_ok : Bool) : MsgOutcome :=
  match body with
  | .malformed => { deleted := true, raised := false, dispatched := none }
  | .obj fields =>
    let job_id := lookupJ fields "job_id"
    let s3_key := lookupJ fields "s3_key"
    if !optTruthy job_id || !optTruthy s3_key then
      { deleted := false, raised := true, dispatched := none }
    else if processing_ok then
      { deleted := true, raised := false,
        dispatched := some ((job_id.getD .jnull), (s3_key.getD .jnull)) }
    else
      { deleted := false, raised := true,
        dispatched := some ((job_id.getD .jnull), (s3_key.getD .jnull)) }

/-! ## Encoding probe (`S3Service.read_csv_file`, bytes to text) -/

/-- A byte. -/
abbrev Byte := Fin 256

/-- A UTF-8 continuation byte (`0x80`–`0xBF`). -/
def utf8Cont (b : Byte) : Bool := 128 ≤ b.val && b.val < 192

/-- Validating UTF-8 decoder (`bytes.decode("utf-8")`), returning code points;
`none` models `UnicodeDecodeError`.  Overlong forms, surrogates and values
above `U+10FFFF` are rejected as CPython rejects them. -/
def utf8Dec : List Byte → Option (List Nat)
  | [] => some []
  | b :: rest =>
    let n := b.val
    if n < 128 then (utf8Dec rest).map (fun cs => n :: cs)
    else if n < 194 then none
    else if n < 224 then
      match rest with
      | b2 :: rest2 =>
          if utf8Cont b2 then
            (utf8Dec rest2).map (fun cs => ((n - 192) * 64 + (b2.val - 128)) :: cs)
          else none
      | _ => none
    else if n < 240 then
      match rest with
      | b2 :: b3 :: rest2 =>
          let ok2 :=
            if n = 224 then 160 ≤ b2.val && b2.val < 192
            else if n = 237 then 128 ≤ b2.val && b2.val < 160
            else utf8Cont b2
          if ok2 && utf8Cont b3 then
            (utf8Dec rest2).map (fun cs =>
              ((n - 224) * 4096 + (b2.val - 128) * 64 + (b3.val - 128)) :: cs)
          else none
      | _ => none
    else if n < 245 then
      match rest with
      | b2 :: b3 :: b4 :: rest2 =>
          let ok2 :=
            if n = 240 then 144 ≤ b2.val && b2.val < 192
            else if n = 244 then 128 ≤ b2.val && b2.val < 144
            else utf8Cont b2
          if ok2 && utf8Cont b3 && utf8Cont b4 then
            (utf8Dec rest2).map (fun cs =>
              ((n - 240) * 262144 + (b2.val - 128) * 4096 +
                (b3.val - 128) * 64 + (b4.val - 128)) :: cs)
          else none
      | _ => none
    else none

/-- `bytes.decode("latin-1")`: total, each byte is its own code point. -/
def latin1Dec (bs : List Byte) : List Nat := bs.map (fun b => b.val)

/-- The cp1252 mapping for `0x80`–`0x9F`; `none` for the five undefined bytes
(`0x81, 0x8d, 0x8f, 0x90, 0x9d`), on which `bytes.decode("cp1252")` raises. -/
def cp1252High (n : Nat) : Option Nat :=
  if n = 0x80 then some 0x20ac else if n = 0x82 then some 0x201a
  else if n = 0x83 then some 0x0192 else if n = 0x84 then some 0x201e
  else if n = 0x85 then some 0x2026 else if n = 0x86 then some 0x2020
  else if n = 0x87 then some 0x2021 else if n = 0x88 then some 0x02c6
  else if n = 0x89 then some 0x2030 else if n = 0x8a then some 0x0160
  else if n = 0x8b then some 0x2039 else if n = 0x8c then some 0x0152
  else if n = 0x8e then some 0x017d else if n = 0x91 then some 0x2018
  else if n = 0x92 then some 0x2019 else if n = 0x93 then some 0x201c
  else if n = 0x94 then some 0x201d else if n = 0x95 then some 0x2022
  else if n = 0x96 then some 0x2013 else if n = 0x97 then some 0x2014
  else if n = 0x98 then some 0x02dc else if n = 0x99 then some 0x2122
  else if n = 0x9a then some 0x0161 else if n = 0x9b then some 0x203a
  else if n = 0x9c then some 0x0153 else if n = 0x9e then some 0x017e
  else if n = 0x9f then some 0x0178 else none

/-- `bytes.decode("cp1252")` / `bytes.decode("windows-1252")`. -/
def cp1252Dec (bs : List Byte) : Option (List Nat) :=
  bs.foldr
    (fun b acc =>
      match acc with
      | none => none
      | some cs =>
        if b.val < 0x80 || 0xa0 ≤ b.val then some (b.val :: cs)
        else (cp1252High b.val).map (fun c => c :: cs))
    (some [])

/-- The encoding list `S3Service.read_csv_file` tries, in order. -/
def encodingList : List String := ["utf-8", "latin-1", "cp1252", "iso-8859-1", "windows-1252"]

/-- One `raw_content.decode(encoding)` attempt. -/
def decodeWith (enc : String) (bs : List Byte) : Option (List Nat) :=
  if enc = "utf-8" then utf8Dec bs
  else if enc = "latin-1" then some (latin1Dec bs)
  else if enc = "cp1252" then cp1252Dec bs
  else if enc = "iso-8859-1" then some (latin1Dec bs)
  else if enc = "windows-1252" then cp1252Dec bs
  else none

/-- The encoding probe loop: first clean decode wins, with the chosen
encoding; `none` models reaching the `content is None` branch that raises
"Failed to decode CSV file with any encoding". -/
def encodingProbe (bs : List Byte) : Option (String × List Nat) :=
  encodingList.foldl
    (fun acc enc =>
      match acc with
      | some r => some r
      | none => (decodeWith enc bs).map (fun cs => (enc, cs)))
    none

/-! ## Delimiter probe (`S3Service.read_csv_file`, text to rows)

`csv.DictReader` is modelled for the quote-free inputs this code path sees:
universal newlines, blank lines skipped, the first remaining line as header,
each later line split on the delimiter and zipped against the header with
`None` for missing trailing fields (`restval`).  Keys with empty/whitespace
headers are dropped and keys/values stripped as in the source's cleanup loop,
and rows whose values are all empty are dropped. -/

/-- Split a character list at each character satisfying `p` (the semantics of
Python/`str.split`-style splitting with empty segments kept). -/
def splitCharsAux (p : Char → Bool) (acc : List Char) : List Char → List String
  | [] => [String.mk acc.reverse]
  | c :: rest =>
      if p c then String.mk acc.reverse :: splitCharsAux p [] rest
      else splitCharsAux p (c :: acc) rest

/-- Split a string at each character satisfying `p`. -/
def pySplit (p : Char → Bool) (s : String) : List String :=
  splitCharsAux p [] s.toList

/-- Whether a string contains a character. -/
def strContains (s : String) (c : Char) : Bool := s.toList.contains c

/-- One parsed CSV line: split on the delimiter. -/
def splitFields (delim : Char) (line : String) : List String :=
  pySplit (fun c => c = delim) line

/-- `dict(zip(header, row))` with `restval=None` for missing values, extras
beyond the header dropped (they land under the `None` restkey, which the
cleanup below discards). -/
def zipHeader : List String → List String → List (String × Option String)
  | [], _ => []
  | h :: hs, [] => (h, none) :: zipHeader hs []
  | h :: hs, v :: vs => (h, some v) :: zipHeader hs vs

/-- The text's lines as the csv reader sees them: split on newlines, trailing
carriage returns removed, blank lines skipped. -/
def csvLines (text : String) : List String :=
  ((pySplit (fun c => c = '\n') text).map
    (fun l => if l.toList.getLast? = some '\x0d' then String.mk l.toList.dropLast else l)).filter
    (fun l => !(l == ""))

/-- The `csv.DictReader(content_io, delimiter=delimiter)` rows. -/
def dictRows (delim : Char) (text : String) : List (List (String × Option String)) :=
  match csvLines text with
  | [] => []
  | header :: rest =>
      let hs := splitFields delim header
      rest.map (fun line => zipHeader hs (splitFields delim line))

/-- The cleanup of one row: drop empty/whitespace keys, strip keys, strip
truthy values (`value.strip() if value else value`). -/
def cleanRow (r : List (String × Option String)) : List (String × Option String) :=
  (r.filter (fun p => !(pyStrip p.1 == ""))).map
    (fun p =>
      (pyStrip p.1,
        match p.2 with
        | some v => if v = "" then some "" else some (pyStrip v)
        | none => none))

/-- `if cleaned_row and any(v and str(v).strip() for v in cleaned_row.values())`. -/
def rowHasValue (r : List (String × Option String)) : Bool :=
  r.any (fun p =>
    match p.2 with
    | some v => !(v == "") && !(pyStrip v == "")
    | none => false)

/-- The `test_rows` a delimiter attempt produces. -/
def testRows (delim : Char) (text : String) : List (List (String × Option String)) :=
  ((dictRows delim text).map cleanRow).filter
    (fun r => !r.isEmpty && rowHasValue r)

/-- The source's `field_names_look_valid` check: for `;` reject field names
containing `,`; for `,` reject `;`; otherwise (the tab case) reject both. -/
def fieldNamesLookValid (delim : Char) (fns : List String) : Bool :=
  if delim = ';' then !(fns.any (fun fn => strContains fn ','))
  else if delim = ',' then !(fns.any (fun fn => strContains fn ';'))
  else !(fns.any (fun fn => strContains fn ',' || strContains fn ';'))

/-- The acceptance test one delimiter attempt runs on its first produced row. -/
def delimiterAccepts (delim : Char) (text : String) : Bool :=
  match testRows delim text with
  | [] => false
  | first :: _ =>
      let fns := first.map (fun p => p.1)
      decide (fns.length > 1) && decide ((first.filter (fun p =>
        match p.2 with
        | some v => !(v == "") && !(pyStrip v == "")
        | none => false)).length > 0) && fieldNamesLookValid delim fns

/-- The delimiter list the source tries, in order. -/
def delimiterList : List Char := [';', ',', '\t']

/-- The delimiter probe: first accepted delimiter wins, else the fallback `,`. -/
def chooseDelimiter (text : String) : Char :=
  match delimiterList.find? (fun d => delimiterAccepts d text) with
  | some d => d
  | none => ','

/-- The CLAIM's version of the acceptance test, for comparison: condition (c)
rejects a column name containing ANY candidate delimiter other than the one
being tried (tab included for the `;` and `,` attempts). -/
def claimNameRule (delim : Char) (fns : List String) : Bool :=
  (delimiterList.filter (fun d2 => !(d2 == delim))).all
    (fun d2 => !(fns.any (fun fn => strContains fn d2)))

/-- The CLAIM's version of the whole acceptance test. -/
def claimAccepts (delim : Char) (text : String) : Bool :=
  match testRows delim text with
  | [] => false
  | first :: _ =>
      let fns := first.map (fun p => p.1)
      decide (fns.length > 1) && decide ((first.filter (fun p =>
        match p.2 with
        | some v => !(v == "") && !(pyStrip v == "")
        | none => false)).length > 0) && claimNameRule delim fns

/-! ## Observation helpers and spec-side statements -/

/-- The staging row with a given id (first match, as every query does). -/
def stagingById (db : DB) (sid : Nat) : Option StagingRec :=
  db.stagings.find? (fun s => s.id == sid)

/-- The status of a job. -/
def jobStatusOf (db : DB) (job_id : Nat) : Option JobStatus :=
  (get_by_id db job_id).map (fun j => j.status)

/-- The claim's statement of the canonical row hash: SHA-256 hex digest of the
sorted-keys JSON serialization of the normalized six-field map. -/
def specRowHash (j n : Nat) (r : Row) : String :=
  sha256hex (strBytes (jsonDumpsSorted
    [("company", .str (pyStrip (dictGetD r "company"))),
     ("email", .str (pyStrip (pyLower (dictGetD r "email")))),
     ("first_name", .str (pyStrip (dictGetD r "first_name"))),
     ("job_id", .num j),
     ("last_name", .str (pyStrip (dictGetD r "last_name"))),
     ("row_number", .num n)]))

/-- Spec-side column-name rule as the source implements it: the `;` attempt
rejects names containing `,`, the `,` attempt rejects names containing `;`,
and the tab attempt rejects both. -/
def nameRuleSpec (d : Char) (fns : List String) : Prop :=
  if d = ';' then ∀ fn ∈ fns, ¬(strContains fn ',' = true)
  else if d = ',' then ∀ fn ∈ fns, ¬(strContains fn ';' = true)
  else ∀ fn ∈ fns, ¬(strContains fn ',' = true) ∧ ¬(strContains fn ';' = true)

/-- Spec-side acceptance test for one delimiter attempt: the first produced
row has more than one column, at least one non-empty value, and column names
passing `nameRuleSpec`. -/
def acceptSpec (d : Char) (text : String) : Prop :=
  match testRows d text with
  | [] => False
  | first :: _ =>
      1 < first.length ∧
      (∃ p ∈ first, ∃ v, p.2 = some v ∧ v ≠ "" ∧ pyStrip v ≠ "") ∧
      nameRuleSpec d (first.map Prod.fst)

/-- The status one reprocess-loop iteration leaves on its own staging row:
DISCARD rows are untouched, valid rows become READY, invalid rows ISSUE. -/
def reprocessPostStatus (dup exist : List String) (s : StagingRec) : StagingStatus :=
  if s.status == StagingStatus.DISCARD then s.status
  else if (validate_row (buildRowData s) dup exist).is_valid then StagingStatus.READY
  else StagingStatus.ISSUE

/-- The number of snapshot rows the reprocess loop counts as issues: the
non-DISCARD rows failing validation. -/
def reprocessNewIssues (dup exist : List String) (l : List StagingRec) : Nat :=
  (l.filter (fun s => !(s.status == StagingStatus.DISCARD) &&
    !(validate_row (buildRowData s) dup exist).is_valid)).length

/-! ## Scenario fixtures -/

/-- The S2 fixture rows: header `email,first_name,last_name,company`, row 1
with an empty email, row 2 with email `not-an-email`. -/
def s2rows : List Row :=
  [[("email", ""), ("first_name", "Jo"), ("last_name", "Day"), ("company", "Co")],
   [("email", "not-an-email"), ("first_name", "Kim"), ("last_name", "Lee"), ("company", "Co")]]

/-- PENDING job 1 for user `u1`. -/
def s2job0 : JobRec :=
  { id := 1, userId := "u1", status := .PENDING, totalRows := 0,
    processedRows := 0, issueCount := 0 }

/-- A fresh database with PENDING job 1 for user `u1`. -/
def s2db0 : DB :=
  { jobs := [s2job0], stagings := [], issues := [], issueItems := [], contacts := [] }

/-- The S2 fixture after initial processing. -/
def s2res : DB := process_job s2db0 1 s2rows

/-- The state a job reaches when its only CSV row failed validation (initial
flow created the staging row and its issue, job went NEEDS_REVIEW) and the
reviewer then discarded the staging row.  A redelivered message now enters the
reprocess flow.  This job record is its `jobs` row. -/
def c1job : JobRec :=
  { id := 1, userId := "u1", status := .NEEDS_REVIEW, totalRows := 1,
    processedRows := 1, issueCount := 1 }

/-- The discarded staging row of the C1 scenario. -/
def c1staging : StagingRec :=
  { id := 1, jobId := 1, email := "", firstName := "Jo",
    lastName := "Day", company := "Co", rowHash := "h1", status := .DISCARD }

/-- The never-resolved issue of the C1 scenario. -/
def c1issue : IssueRec :=
  { id := 1, jobId := 1, itype := .MISSING_REQUIRED_FIELD,
    key := "row_1", resolved := false,
    description := some "Missing required field: email",
    resolvedAt := none, resolvedBy := none, resolutionComment := none }

/-- The C1 scenario database. -/
def c1db : DB :=
  { jobs := [c1job], stagings := [c1staging], issues := [c1issue],
    issueItems := [{ id := 1, issueId := 1, stagingId := 1 }],
    contacts := [] }

/-- A CSV text whose header contains a tab inside the first column name: the
`;` attempt accepts it although a different candidate delimiter (tab) occurs
in a column name. -/
def tabHeaderCsv : String := "a\tb;c\n1;2"

/-- A contact owned by user `userA`. -/
def c9contactA : ContactRec :=
  { id := 1, stagingId := 1, userId := "userA", email := "a@x.io",
    firstName := "Ann", lastName := "Lee", company := "Acme" }

/-- An empty database. -/
def emptyDB : DB :=
  { jobs := [], stagings := [], issues := [], issueItems := [], contacts := [] }

/-- A row with shuffled key order, an extra key, upper-case email and
whitespace around it. -/
def c7rowA : Row :=
  [("email", " Ann@X.IO "), ("first_name", "Ann"), ("last_name", "Lee"),
   ("company", "Acme")]

/-- The same logical row as `c7rowA` after normalization. -/
def c7rowB : Row :=
  [("company", "Acme"), ("extra", "zz"), ("last_name", "Lee"),
   ("first_name", "Ann"), ("email", "ann@x.io")]

/-! # Theorems -/

set_option maxRecDepth 2000000
set_option maxHeartbeats 2000000

/-! ## Generic list lemmas for first-match updates -/

theorem updateFirst_cons {α : Type} (p : α → Bool) (f : α → α) (x : α) (l : List α) :
    updateFirst p f (x :: l) = if p x then f x :: l else x :: updateFirst p f l := rfl

theorem updateFirst_map {α β : Type} (p : α → Bool) (f : α → α) (g : α → β)
    (hg : ∀ x, g (f x) = g x) (l : List α) :
    (updateFirst p f l).map g = l.map g := by
  induction l with
  | nil => rfl
  | cons x xs ih =>
      rw [updateFirst_cons]
      by_cases hx : p x <;> simp [hx, hg, ih]

theorem find?_updateFirst {α : Type} (p : α → Bool) (f : α → α)
    (hp : ∀ x, p (f x) = p x) (l : List α) :
    (updateFirst p f l).find? p = (l.find? p).map f := by
  induction l with
  | nil => rfl
  | cons x xs ih =>
      rw [updateFirst_cons]
      by_cases hx : p x
      · simp [hx, List.find?_cons, hp]
      · simp [hx, List.find?_cons, ih]

theorem find?_updateFirst_of_ne {α : Type} (p q : α → Bool) (f : α → α)
    (hq : ∀ x, q (f x) = q x) (hpq : ∀ x, p x = true → q x = false) (l : List α) :
    (updateFirst p f l).find? q = l.find? q := by
  induction l with
  | nil => rfl
  | cons x xs ih =>
      rw [updateFirst_cons]
      by_cases hx : p x
      · simp [hx, List.find?_cons, hq, hpq x hx]
      · cases hqx : q x <;> simp [hx, List.find?_cons, hqx, ih]

theorem updateFirst_of_no_match {α : Type} (p : α → Bool) (f : α → α)
    (l : List α) (h : ∀ x ∈ l, p x = false) : updateFirst p f l = l := by
  induction l with
  | nil => rfl
  | cons x xs ih =>
      rw [updateFirst_cons]
      rw [if_neg (by simp [h x (List.mem_cons_self x xs)])]
      rw [ih (fun y hy => h y (List.mem_cons_of_mem x hy))]

theorem updateFirst_append_left_none {α : Type} (p : α → Bool) (f : α → α)
    (l1 l2 : List α) (h : ∀ x ∈ l1, p x = false) :
    updateFirst p f (l1 ++ l2) = l1 ++ updateFirst p f l2 := by
  induction l1 with
  | nil => rfl
  | cons x xs ih =>
      rw [List.cons_append, updateFirst_cons]
      rw [if_neg (by simp [h x (List.mem_cons_self x xs)])]
      rw [ih (fun y hy => h y (List.mem_cons_of_mem x hy)), List.cons_append]

theorem le_foldr_max (l : List Nat) : ∀ x ∈ l, x ≤ l.foldr max 0 := by
  induction l with
  | nil => intro x hx; cases hx
  | cons a as ih =>
      intro x hx
      rcases List.mem_cons.mp hx with h | h
      · subst h; exact Nat.le_max_left _ _
      · exact le_trans (ih x h) (Nat.le_max_right _ _)

theorem freshId_not_mem (ids : List Nat) : freshId ids ∉ ids := by
  intro hmem
  have := le_foldr_max ids _ hmem
  simp [freshId] at this

/-! ## Frame lemmas: which tables each repository operation leaves unchanged -/

@[simp] theorem update_status_stagings (db : DB) (j : Nat) (st : JobStatus) :
    (update_status db j st).stagings = db.stagings := rfl

@[simp] theorem update_status_issues (db : DB) (j : Nat) (st : JobStatus) :
    (update_status db j st).issues = db.issues := rfl

@[simp] theorem update_status_issueItems (db : DB) (j : Nat) (st : JobStatus) :
    (update_status db j st).issueItems = db.issueItems := rfl

@[simp] theorem update_status_contacts (db : DB) (j : Nat) (st : JobStatus) :
    (update_status db j st).contacts = db.contacts := rfl

@[simp] theorem update_metadata_stagings (db : DB) (j : Nat) (a b c : Option Nat) :
    (update_metadata db j a b c).stagings = db.stagings := rfl

@[simp] theorem update_metadata_issues (db : DB) (j : Nat) (a b c : Option Nat) :
    (update_metadata db j a b c).issues = db.issues := rfl

@[simp] theorem update_metadata_issueItems (db : DB) (j : Nat) (a b c : Option Nat) :
    (update_metadata db j a b c).issueItems = db.issueItems := rfl

@[simp] theorem staging_update_status_jobs (db : DB) (sid : Nat) (st : StagingStatus) :
    (staging_update_status db sid st).jobs = db.jobs := rfl

@[simp] theorem mark_as_resolved_stagings (db : DB) (iid : Nat) (rb rc : String) :
    (mark_as_resolved db iid rb rc).stagings = db.stagings := rfl

@[simp] theorem mark_as_resolved_jobs (db : DB) (iid : Nat) (rb rc : String) :
    (mark_as_resolved db iid rb rc).jobs = db.jobs := rfl

@[simp] theorem check_and_mark_resolved_stagings (db : DB) (iid : Nat) :
    ((check_and_mark_resolved db iid).2).stagings = db.stagings := by
  unfold check_and_mark_resolved
  by_cases h1 : (issue_linked_staging_ids db iid).isEmpty
  · simp [h1]
  · by_cases h2 : unresolved_staging_count db (issue_linked_staging_ids db iid) = 0 <;>
      simp [h1, h2]

@[simp] theorem check_and_mark_resolved_jobs (db : DB) (iid : Nat) :
    ((check_and_mark_resolved db iid).2).jobs = db.jobs := by
  unfold check_and_mark_resolved
  by_cases h1 : (issue_linked_staging_ids db iid).isEmpty
  · simp [h1]
  · by_cases h2 : unresolved_staging_count db (issue_linked_staging_ids db iid) = 0 <;>
      simp [h1, h2]

@[simp] theorem check_and_mark_resolved_issueItems (db : DB) (iid : Nat) :
    ((check_and_mark_resolved db iid).2).issueItems = db.issueItems := by
  unfold check_and_mark_resolved
  by_cases h1 : (issue_linked_staging_ids db iid).isEmpty
  · simp [h1]
  · by_cases h2 : unresolved_staging_count db (issue_linked_staging_ids db iid) = 0 <;>
      simp [h1, h2, mark_as_resolved]

@[simp] theorem issue_get_or_create_stagings (db : DB) (j : Nat) (t : IssueType)
    (k : String) (d : Option String) :
    ((issue_get_or_create db j t k d).2).stagings = db.stagings := by
  unfold issue_get_or_create
  cases issue_find db j t k <;> rfl

@[simp] theorem issue_get_or_create_jobs (db : DB) (j : Nat) (t : IssueType)
    (k : String) (d : Option String) :
    ((issue_get_or_create db j t k d).2).jobs = db.jobs := by
  unfold issue_get_or_create
  cases issue_find db j t k <;> rfl

@[simp] theorem issue_get_or_create_issueItems (db : DB) (j : Nat) (t : IssueType)
    (k : String) (d : Option String) :
    ((issue_get_or_create db j t k d).2).issueItems = db.issueItems := by
  unfold issue_get_or_create
  cases issue_find db j t k <;> rfl

@[simp] theorem link_staging_to_issue_stagings (db : DB) (iid sid : Nat) :
    ((link_staging_to_issue db iid sid).2).stagings = db.stagings := by
  unfold link_staging_to_issue
  cases db.issueItems.find? (fun it => it.issueId == iid && it.stagingId == sid) <;> rfl

@[simp] theorem link_staging_to_issue_jobs (db : DB) (iid sid : Nat) :
    ((link_staging_to_issue db iid sid).2).jobs = db.jobs := by
  unfold link_staging_to_issue
  cases db.issueItems.find? (fun it => it.issueId == iid && it.stagingId == sid) <;> rfl

theorem create_from_staging_no_ok (db : DB) (s : StagingRec) (u : String) :
    ∀ r, create_from_staging db s u ≠ Except.ok r := by
  intro r
  unfold create_from_staging
  by_cases h : s.email = "" || s.firstName = "" || s.lastName = "" ||
      s.company = "" || u = ""
  · rw [if_pos h]
    exact fun hc => Except.noConfusion hc
  · rw [if_neg h]
    exact fun hc => Except.noConfusion hc

theorem batch_create_aux_ok (u : String) (ss : List StagingRec) :
    ∀ (acc r : List ContactRec × DB),
      batch_create_aux u ss acc = Except.ok r → r = acc := by
  induction ss with
  | nil =>
      intro acc r h
      exact (Except.ok.inj h).symm
  | cons s ss ih =>
      intro acc r h
      unfold batch_create_aux at h
      cases hc : create_from_staging acc.2 s u with
      | ok v =>
          exact absurd hc (create_from_staging_no_ok acc.2 s u v)
      | error e =>
          rw [hc] at h
          cases e with
          | valueError =>
              dsimp only at h
              exact ih acc r h
          | typeError =>
              dsimp only at h
              exact Except.noConfusion h

/-- A successful batch creation can only be the degenerate one: no record
passed the field guards, nothing was created, the database is untouched. -/
theorem batch_create_from_staging_ok (db : DB) (ss : List StagingRec) (u : String)
    (r : List ContactRec × DB)
    (h : batch_create_from_staging db ss u = Except.ok r) : r = ([], db) := by
  unfold batch_create_from_staging at h
  exact batch_create_aux_ok u ss ([], db) r h
/-! ## C10 — the encoding probe cannot fail -/

/-- C10: for every byte string the encoding probe of `S3Service.read_csv_file`
succeeds, because `latin-1` (tried right after `utf-8`) decodes arbitrary
bytes; the "Failed to decode CSV file with any encoding" branch is
unreachable. -/
theorem claim_C10 (bs : List Byte) : (encodingProbe bs).isSome = true := by
  unfold encodingProbe encodingList
  simp only [List.foldl_cons, List.foldl_nil]
  cases hu : decodeWith "utf-8" bs with
  | none => simp [hu, decodeWith]
  | some v => simp [hu]

/-! ## C3 — missing `job_id`/`s3_key` is NOT deleted as a poison pill -/

/-- C3 counterexample: a valid-JSON body missing `s3_key` is not deleted; the
consumer raises instead, so the message stays for redelivery — the claim says
it would be deleted. -/
theorem claim_C3_counterexample :
    (process_message (ParsedBody.obj [("job_id", JVal.jnum 1)]) true).deleted = false ∧
    (process_message (ParsedBody.obj [("job_id", JVal.jnum 1)]) true).raised = true := by
  decide

/-- C3 as amended: for a valid-JSON object body, a missing or falsy `job_id`
or `s3_key` raises `ValueError`, which the generic handler re-raises without
deleting (the message is left for redelivery); only a body that is not valid
JSON is deleted as a poison pill. -/
theorem claim_C3 (fields : List (String × JVal)) (ok : Bool)
    (h : optTruthy (lookupJ fields "job_id") = false ∨
      optTruthy (lookupJ fields "s3_key") = false) :
    process_message (.obj fields) ok =
      { deleted := false, raised := true, dispatched := none } ∧
    process_message .malformed ok =
      { deleted := true, raised := false, dispatched := none } := by
  constructor
  · unfold process_message
    rcases h with h | h <;> simp [h]
  · rfl

theorem claim_C3_witness :
    (optTruthy (lookupJ [("job_id", JVal.jnum 1)] "s3_key") = false) ∧
    process_message (.obj [("job_id", JVal.jnum 1)]) true =
      { deleted := false, raised := true, dispatched := none } :=
  ⟨by decide, (claim_C3 [("job_id", JVal.jnum 1)] true (Or.inr (by decide))).1⟩

/-! ## C8 — issue upsert and link are idempotent -/

/-- C8: `Issue.get_or_create` called twice with the same `(job_id, type, key)`
returns the same issue and leaves the database unchanged by the second call,
whatever the second description; likewise `link_staging_to_issue` for the same
`(issue_id, staging_id)`. -/
theorem claim_C8 (db : DB) (job_id : Nat) (t : IssueType) (key : String)
    (d1 d2 : Option String) (iid sid : Nat) :
    issue_get_or_create (issue_get_or_create db job_id t key d1).2 job_id t key d2 =
      ((issue_get_or_create db job_id t key d1).1,
       (issue_get_or_create db job_id t key d1).2) ∧
    link_staging_to_issue (link_staging_to_issue db iid sid).2 iid sid =
      ((link_staging_to_issue db iid sid).1,
       (link_staging_to_issue db iid sid).2) := by
  constructor
  · cases hf : issue_find db job_id t key with
    | some i =>
        simp [issue_get_or_create, hf]
    | none =>
        have hfind2 : issue_find
            { db with issues := db.issues ++
              [{ id := freshId (db.issues.map (fun x => x.id)), jobId := job_id,
                 itype := t, key := key, resolved := false, description := d1,
                 resolvedAt := none, resolvedBy := none, resolutionComment := none }] }
            job_id t key = some
              { id := freshId (db.issues.map (fun x => x.id)), jobId := job_id,
                itype := t, key := key, resolved := false, description := d1,
                resolvedAt := none, resolvedBy := none, resolutionComment := none } := by
          unfold issue_find at hf ⊢
          rw [List.find?_append, hf]
          simp
        simp [issue_get_or_create, hf, hfind2]
  · cases hf : db.issueItems.find?
        (fun it => it.issueId == iid && it.stagingId == sid) with
    | some it =>
        simp [link_staging_to_issue, hf]
    | none =>
        have hfind2 : List.find?
            (fun it => it.issueId == iid && it.stagingId == sid)
            (db.issueItems ++
              [{ id := freshId (db.issueItems.map (fun x => x.id)),
                 issueId := iid, stagingId := sid }]) = some
              { id := freshId (db.issueItems.map (fun x => x.id)),
                issueId := iid, stagingId := sid } := by
          rw [List.find?_append, hf]
          simp
        simp [link_staging_to_issue, hf, hfind2]

/-! ## C9 — per-user existence checks (defect: the model lacks the column) -/

/-- C9: characterization of the per-user query `ContactRepository.
get_existing_emails` is written to perform (`get_existing_emails_fixed`, the
shipped filter evaluated as if the `contacts_user_id` column existed) — an
email is returned iff it is among the given emails and a contact with that
email exists for this `user_id` — together with the two-run statement:
contacts of other users never change the result.  As shipped,
`src/models/contact.py` defines no `contacts_user_id` column, so the real
call (`get_existing_emails`) raises `AttributeError` for every non-empty
email list instead (see RESULTS for the defect report). -/
theorem claim_C9 (db : DB) (emails : List String) (user_id e : String) :
    (e ∈ get_existing_emails_fixed db emails user_id ↔
      e ∈ emails ∧ ∃ c ∈ db.contacts, c.email = e ∧ c.userId = user_id) ∧
    ∀ extra : List ContactRec, (∀ c ∈ extra, c.userId ≠ user_id) →
      get_existing_emails_fixed { db with contacts := db.contacts ++ extra }
          emails user_id
        = get_existing_emails_fixed db emails user_id := by
  constructor
  · unfold get_existing_emails_fixed
    by_cases hm : emails.isEmpty
    · have : emails = [] := List.isEmpty_iff.mp hm
      subst this
      simp
    · simp only [hm, if_neg, Bool.false_eq_true, not_false_iff, if_false]
      rw [List.mem_dedup, List.mem_map]
      constructor
      · rintro ⟨c, hc, rfl⟩
        rw [List.mem_filter] at hc
        rcases hc with ⟨hcmem, hcond⟩
        rw [Bool.and_eq_true, beq_iff_eq] at hcond
        have hmem2 : c.email ∈ emails := by simpa using hcond.1
        exact ⟨hmem2, c, hcmem, rfl, hcond.2⟩
      · rintro ⟨hmem, c, hc, rfl, hu⟩
        refine ⟨c, ?_, rfl⟩
        rw [List.mem_filter]
        refine ⟨hc, ?_⟩
        rw [Bool.and_eq_true, beq_iff_eq]
        exact ⟨by simpa using hmem, hu⟩
  · intro extra hextra
    unfold get_existing_emails_fixed
    by_cases hm : emails.isEmpty
    · simp [hm]
    · simp only [hm, Bool.false_eq_true, not_false_iff, if_false]
      have : extra.filter (fun c =>
          emails.contains c.email && c.userId == user_id) = [] := by
        rw [List.filter_eq_nil_iff]
        intro c hc
        simp [beq_iff_eq]
        intro _
        exact hextra c hc
      rw [List.filter_append, this, List.append_nil]

theorem claim_C9_witness :
    (∀ c ∈ [c9contactA], c.userId ≠ "userB") ∧
    get_existing_emails_fixed
        { emptyDB with contacts := emptyDB.contacts ++ [c9contactA] }
        ["a@x.io"] "userB"
      = get_existing_emails_fixed emptyDB ["a@x.io"] "userB" :=
  ⟨by decide, (claim_C9 emptyDB ["a@x.io"] "userB" "a@x.io").2 [c9contactA] (by decide)⟩

/-! ## C6 — the validation cascade -/

theorem fieldMissing_iff_specBlank (row : Row) (f : String) :
    fieldMissing row f = true ↔ specBlank row f := by
  have h0 : pyStrip "" = "" := by decide
  unfold fieldMissing fieldValue specBlank
  cases h : dictGet row f with
  | none => simp
  | some v =>
      by_cases hv : v = ""
      · subst hv; simp [h0]
      · simp [hv]

/-- C6: `validate_row` applies exactly the four rules in order with the first
failure winning — MISSING_REQUIRED_FIELD for an absent/empty/whitespace-only
required field, then INVALID_EMAIL by the pattern, then DUPLICATE_EMAIL by
membership in the duplicate set, then EXISTING_EMAIL by membership in the
existing set, else valid.  The function is pure: the characterization is in
terms of its three arguments only. -/
theorem claim_C6 (row : Row) (dup exist : List String) :
    ((validate_row row dup exist).issueTypeOf = some IssueType.MISSING_REQUIRED_FIELD ↔
      ∃ f ∈ REQUIRED_FIELDS, specBlank row f) ∧
    ((validate_row row dup exist).issueTypeOf = some IssueType.INVALID_EMAIL ↔
      (∀ f ∈ REQUIRED_FIELDS, ¬ specBlank row f) ∧
        emailMatch (pyStrip (dictGetD row "email")) = false) ∧
    ((validate_row row dup exist).issueTypeOf = some IssueType.DUPLICATE_EMAIL ↔
      (∀ f ∈ REQUIRED_FIELDS, ¬ specBlank row f) ∧
        emailMatch (pyStrip (dictGetD row "email")) = true ∧
        normalize_email (pyStrip (dictGetD row "email")) ∈ dup) ∧
    ((validate_row row dup exist).issueTypeOf = some IssueType.EXISTING_EMAIL ↔
      (∀ f ∈ REQUIRED_FIELDS, ¬ specBlank row f) ∧
        emailMatch (pyStrip (dictGetD row "email")) = true ∧
        normalize_email (pyStrip (dictGetD row "email")) ∉ dup ∧
        normalize_email (pyStrip (dictGetD row "email")) ∈ exist) ∧
    ((validate_row row dup exist).is_valid = true ↔
      (∀ f ∈ REQUIRED_FIELDS, ¬ specBlank row f) ∧
        emailMatch (pyStrip (dictGetD row "email")) = true ∧
        normalize_email (pyStrip (dictGetD row "email")) ∉ dup ∧
        normalize_email (pyStrip (dictGetD row "email")) ∉ exist) := by
  have key := fieldMissing_iff_specBlank row
  cases hf : REQUIRED_FIELDS.find? (fun f => fieldMissing row f) with
  | some f =>
      have hmem : f ∈ REQUIRED_FIELDS := List.mem_of_find?_eq_some hf
      have htrue : fieldMissing row f = true := by
        have := List.find?_some hf
        simpa using this
      have hblank : specBlank row f := (key f).mp htrue
      have hres : validate_row row dup exist =
          .invalid .MISSING_REQUIRED_FIELD ("Missing required field: " ++ f) := by
        unfold validate_row
        rw [hf]
      rw [hres]
      refine ⟨?_, ?_, ?_, ?_, ?_⟩
      · exact ⟨fun _ => ⟨f, hmem, hblank⟩, fun _ => rfl⟩
      · constructor
        · intro h
          exact absurd h (by simp [ValidationResult.issueTypeOf])
        · rintro ⟨hall, -⟩
          exact absurd hblank (hall f hmem)
      · constructor
        · intro h
          exact absurd h (by simp [ValidationResult.issueTypeOf])
        · rintro ⟨hall, -⟩
          exact absurd hblank (hall f hmem)
      · constructor
        · intro h
          exact absurd h (by simp [ValidationResult.issueTypeOf])
        · rintro ⟨hall, -⟩
          exact absurd hblank (hall f hmem)
      · constructor
        · intro h
          exact absurd h (by simp [ValidationResult.is_valid])
        · rintro ⟨hall, -⟩
          exact absurd hblank (hall f hmem)
  | none =>
      have hall : ∀ f ∈ REQUIRED_FIELDS, ¬ specBlank row f := by
        intro f hf2 hb
        have hnone := List.find?_eq_none.mp hf f hf2
        simp only [Bool.not_eq_true] at hnone
        rw [(key f).mpr hb] at hnone
        cases hnone
      have hres : validate_row row dup exist =
          (if !emailMatch (pyStrip (dictGetD row "email")) then
            ValidationResult.invalid .INVALID_EMAIL
              ("Invalid email format: " ++ pyStrip (dictGetD row "email"))
          else if dup.contains (normalize_email (pyStrip (dictGetD row "email"))) then
            ValidationResult.invalid .DUPLICATE_EMAIL
              ("Duplicate email in CSV: " ++ pyStrip (dictGetD row "email"))
          else if exist.contains (normalize_email (pyStrip (dictGetD row "email"))) then
            ValidationResult.invalid .EXISTING_EMAIL
              ("Email already exists in contacts: " ++ pyStrip (dictGetD row "email"))
          else ValidationResult.valid) := by
        unfold validate_row
        rw [hf]
      by_cases hm : emailMatch (pyStrip (dictGetD row "email")) = true
      · by_cases hd : dup.contains (normalize_email (pyStrip (dictGetD row "email"))) = true
        · have hv : validate_row row dup exist =
              ValidationResult.invalid .DUPLICATE_EMAIL
                ("Duplicate email in CSV: " ++ pyStrip (dictGetD row "email")) := by
            rw [hres, if_neg (by simp [hm]), if_pos hd]
          rw [hv]
          refine ⟨?_, ?_, ?_, ?_, ?_⟩
          · constructor
            · intro h; exact absurd h (by simp [ValidationResult.issueTypeOf])
            · rintro ⟨f, hfm, hb⟩
              exact absurd hb (hall f hfm)
          · constructor
            · intro h; exact absurd h (by simp [ValidationResult.issueTypeOf])
            · rintro ⟨-, hfalse⟩
              rw [hm] at hfalse
              cases hfalse
          · exact ⟨fun _ => ⟨hall, hm, by simpa using hd⟩, fun _ => rfl⟩
          · constructor
            · intro h; exact absurd h (by simp [ValidationResult.issueTypeOf])
            · rintro ⟨-, -, hnd, -⟩
              exact absurd (by simpa using hd) hnd
          · constructor
            · intro h; exact absurd h (by simp [ValidationResult.is_valid])
            · rintro ⟨-, -, hnd, -⟩
              exact absurd (by simpa using hd) hnd
        · by_cases he : exist.contains (normalize_email (pyStrip (dictGetD row "email"))) = true
          · have hv : validate_row row dup exist =
                ValidationResult.invalid .EXISTING_EMAIL
                  ("Email already exists in contacts: " ++ pyStrip (dictGetD row "email")) := by
              rw [hres, if_neg (by simp [hm]), if_neg hd, if_pos he]
            rw [hv]
            refine ⟨?_, ?_, ?_, ?_, ?_⟩
            · constructor
              · intro h; exact absurd h (by simp [ValidationResult.issueTypeOf])
              · rintro ⟨f, hfm, hb⟩
                exact absurd hb (hall f hfm)
            · constructor
              · intro h; exact absurd h (by simp [ValidationResult.issueTypeOf])
              · rintro ⟨-, hfalse⟩
                rw [hm] at hfalse
                cases hfalse
            · constructor
              · intro h; exact absurd h (by simp [ValidationResult.issueTypeOf])
              · rintro ⟨-, -, hmem⟩
                exact absurd hmem (by simpa using hd)
            · exact ⟨fun _ => ⟨hall, hm, by simpa using hd, by simpa using he⟩,
                fun _ => rfl⟩
            · constructor
              · intro h; exact absurd h (by simp [ValidationResult.is_valid])
              · rintro ⟨-, -, -, hne⟩
                exact absurd (by simpa using he) hne
          · have hv : validate_row row dup exist = ValidationResult.valid := by
              rw [hres, if_neg (by simp [hm]), if_neg hd, if_neg he]
            rw [hv]
            refine ⟨?_, ?_, ?_, ?_, ?_⟩
            · constructor
              · intro h; exact absurd h (by simp [ValidationResult.issueTypeOf])
              · rintro ⟨f, hfm, hb⟩
                exact absurd hb (hall f hfm)
            · constructor
              · intro h; exact absurd h (by simp [ValidationResult.issueTypeOf])
              · rintro ⟨-, hfalse⟩
                rw [hm] at hfalse
                cases hfalse
            · constructor
              · intro h; exact absurd h (by simp [ValidationResult.issueTypeOf])
              · rintro ⟨-, -, hmem⟩
                exact absurd hmem (by simpa using hd)
            · constructor
              · intro h; exact absurd h (by simp [ValidationResult.issueTypeOf])
              · rintro ⟨-, -, -, hmem⟩
                exact absurd hmem (by simpa using he)
            · exact ⟨fun _ => ⟨hall, hm, by simpa using hd, by simpa using he⟩,
                fun _ => rfl⟩
      · have hv : validate_row row dup exist =
            ValidationResult.invalid .INVALID_EMAIL
              ("Invalid email format: " ++ pyStrip (dictGetD row "email")) := by
          have hm2 : emailMatch (pyStrip (dictGetD row "email")) = false := by
            simpa using hm
          rw [hres, if_pos (by simp [hm2])]
        rw [hv]
        refine ⟨?_, ?_, ?_, ?_, ?_⟩
        · constructor
          · intro h; exact absurd h (by simp [ValidationResult.issueTypeOf])
          · rintro ⟨f, hfm, hb⟩
            exact absurd hb (hall f hfm)
        · exact ⟨fun _ => ⟨hall, by simpa using hm⟩, fun _ => rfl⟩
        · constructor
          · intro h; exact absurd h (by simp [ValidationResult.issueTypeOf])
          · rintro ⟨-, htrue, -⟩
            exact absurd htrue hm
        · constructor
          · intro h; exact absurd h (by simp [ValidationResult.issueTypeOf])
          · rintro ⟨-, htrue, -⟩
            exact absurd htrue hm
        · constructor
          · intro h; exact absurd h (by simp [ValidationResult.is_valid])
          · rintro ⟨-, htrue, -⟩
            exact absurd htrue hm

/-! ## C7 — row-hash canonical form and determinism -/

/-- C7: `generate_row_hash` equals the SHA-256 hex digest of the sorted-keys
JSON serialization of the normalized six-field map, and any two rows that
agree on the four fields after normalization (email lowercased and trimmed,
the others trimmed — whatever the key order, extra keys, email case or
whitespace) hash identically. -/
theorem claim_C7 (j n : Nat) (r1 r2 : Row)
    (h : hashNormalizedFields r1 = hashNormalizedFields r2) :
    generate_row_hash j n r1 = specRowHash j n r1 ∧
    generate_row_hash j n r1 = generate_row_hash j n r2 := by
  constructor
  · rfl
  · obtain ⟨h1, h2, h3, h4⟩ :
        pyStrip (pyLower (dictGetD r1 "email")) = pyStrip (pyLower (dictGetD r2 "email")) ∧
        pyStrip (dictGetD r1 "first_name") = pyStrip (dictGetD r2 "first_name") ∧
        pyStrip (dictGetD r1 "last_name") = pyStrip (dictGetD r2 "last_name") ∧
        pyStrip (dictGetD r1 "company") = pyStrip (dictGetD r2 "company") := by
      simpa [hashNormalizedFields, Prod.ext_iff] using h
    unfold generate_row_hash
    rw [h1, h2, h3, h4]

theorem claim_C7_witness :
    hashNormalizedFields c7rowA = hashNormalizedFields c7rowB ∧
    generate_row_hash 7 3 c7rowA = generate_row_hash 7 3 c7rowB :=
  ⟨by decide, (claim_C7 7 3 c7rowA c7rowB (by decide)).2⟩

/-! ## C5 — the delimiter probe -/

theorem nameRule_iff (d : Char) (fns : List String) :
    fieldNamesLookValid d fns = true ↔ nameRuleSpec d fns := by
  unfold fieldNamesLookValid nameRuleSpec
  by_cases h1 : d = ';'
  · simp [h1, List.any_eq_true]
  · by_cases h2 : d = ','
    · simp [h1, h2, List.any_eq_true]
    · simp only [h1, h2, if_false]
      rw [Bool.not_eq_true', List.any_eq_false]
      constructor
      · intro hh fn hfn
        have := hh fn hfn
        simpa using this
      · intro hh fn hfn
        have := hh fn hfn
        simpa using this

theorem rowValue_iff (first : List (String × Option String)) :
    ((first.filter (fun p =>
      match p.2 with
      | some v => !(v == "") && !(pyStrip v == "")
      | none => false)).length > 0) ↔
    (∃ p ∈ first, ∃ v, p.2 = some v ∧ v ≠ "" ∧ pyStrip v ≠ "") := by
  rw [gt_iff_lt, List.length_pos]
  constructor
  · intro hne
    rcases List.exists_mem_of_ne_nil _ hne with ⟨p, hp⟩
    rw [List.mem_filter] at hp
    rcases hp with ⟨hmem, hcond⟩
    refine ⟨p, hmem, ?_⟩
    cases hv : p.2 with
    | none => rw [hv] at hcond; cases hcond
    | some v =>
        rw [hv] at hcond
        simp only [Bool.and_eq_true, Bool.not_eq_true', beq_eq_false_iff_ne] at hcond
        exact ⟨v, rfl, hcond.1, hcond.2⟩
  · rintro ⟨p, hmem, v, hv, hv1, hv2⟩
    intro hnil
    have : p ∈ first.filter (fun p =>
        match p.2 with
        | some v => !(v == "") && !(pyStrip v == "")
        | none => false) := by
      rw [List.mem_filter]
      refine ⟨hmem, ?_⟩
      rw [hv]
      simp [hv1, hv2]
    rw [hnil] at this
    cases this

theorem delimiterAccepts_iff (d : Char) (text : String) :
    delimiterAccepts d text = true ↔ acceptSpec d text := by
  unfold delimiterAccepts acceptSpec
  cases hr : testRows d text with
  | nil => simp
  | cons first rest =>
      simp only [Bool.and_eq_true, decide_eq_true_eq]
      constructor
      · rintro ⟨⟨hlen, hcnt⟩, hnames⟩
        refine ⟨by simpa using hlen, (rowValue_iff first).mp hcnt,
          (nameRule_iff d _).mp hnames⟩
      · rintro ⟨hlen, hex, hnames⟩
        exact ⟨⟨by simpa using hlen, (rowValue_iff first).mpr hex⟩,
          (nameRule_iff d _).mpr hnames⟩

/-- C5 counterexample: on `"a\tb;c\n1;2"` the claim's acceptance test (which
rejects a column name containing any other candidate delimiter, tab included)
fails for all three candidates, so the claim predicts the `,` fallback; the
source accepts `;` because its `;` attempt only checks for `,` in column
names. -/
theorem claim_C5_counterexample :
    chooseDelimiter tabHeaderCsv = ';' ∧
    claimAccepts ';' tabHeaderCsv = false ∧
    claimAccepts ',' tabHeaderCsv = false ∧
    claimAccepts '\t' tabHeaderCsv = false := by decide

/-- C5 as amended: the chosen delimiter is the first of `;`, `,`, tab whose
first produced row has more than one column, at least one non-empty value, and
column names passing the source's per-delimiter rule — the `;` attempt rejects
only `,` in column names, the `,` attempt only `;`, and the tab attempt both
(so a tab inside a column name is never checked for the `;`/`,` attempts);
with the `,` fallback when no candidate passes. -/
theorem claim_C5 (text : String) :
    (∀ d, delimiterAccepts d text = true ↔ acceptSpec d text) ∧
    (acceptSpec ';' text → chooseDelimiter text = ';') ∧
    (¬ acceptSpec ';' text → acceptSpec ',' text → chooseDelimiter text = ',') ∧
    (¬ acceptSpec ';' text → ¬ acceptSpec ',' text → acceptSpec '\t' text →
      chooseDelimiter text = '\t') ∧
    (¬ acceptSpec ';' text → ¬ acceptSpec ',' text → ¬ acceptSpec '\t' text →
      chooseDelimiter text = ',') := by
  have hb : ∀ d, ¬ acceptSpec d text → delimiterAccepts d text = false := by
    intro d hd
    cases hda : delimiterAccepts d text with
    | false => rfl
    | true => exact absurd ((delimiterAccepts_iff d text).mp hda) hd
  refine ⟨fun d => delimiterAccepts_iff d text, ?_, ?_, ?_, ?_⟩
  · intro h1
    have := (delimiterAccepts_iff ';' text).mpr h1
    simp [chooseDelimiter, delimiterList, List.find?_cons, this]
  · intro h1 h2
    have e1 := hb ';' h1
    have := (delimiterAccepts_iff ',' text).mpr h2
    simp [chooseDelimiter, delimiterList, List.find?_cons, e1, this]
  · intro h1 h2 h3
    have e1 := hb ';' h1
    have e2 := hb ',' h2
    have := (delimiterAccepts_iff '\t' text).mpr h3
    simp [chooseDelimiter, delimiterList, List.find?_cons, e1, e2, this]
  · intro h1 h2 h3
    have e1 := hb ';' h1
    have e2 := hb ',' h2
    have e3 := hb '\t' h3
    simp [chooseDelimiter, delimiterList, List.find?_cons, e1, e2, e3]

theorem claim_C5_witness :
    acceptSpec ';' tabHeaderCsv ∧ chooseDelimiter tabHeaderCsv = ';' := by
  have h : acceptSpec ';' tabHeaderCsv :=
    ((claim_C5 tabHeaderCsv).1 ';').mp (by decide)
  exact ⟨h, (claim_C5 tabHeaderCsv).2.1 h⟩

/-! ## C4 — the S2 fixture -/

/-- C4 counterexample: the S2 run never produces the claimed end state.  Row
2's email `not-an-email` is truthy, so `all_emails` is non-empty and the
existence preload at processor.py:136 evaluates the undefined
`Contact.contacts_user_id` (contact_repository.py:36), raising
`AttributeError` before the row loop; the flow's handler marks the job
FAILED.  The job is not NEEDS_REVIEW and no Issue exists at all — in
particular neither the claimed `row_1` nor the claimed `row_2` issue. -/
theorem claim_C4_counterexample :
    jobStatusOf s2res 1 ≠ some JobStatus.NEEDS_REVIEW ∧
    s2res.issues = [] := by
  decide

/-- C4 as amended: after initial processing of the S2 fixture against a fresh
database and PENDING job 1, the job ends FAILED (the existence preload for
the non-empty normalized email set raises `AttributeError` on the model class
missing `contacts_user_id`, and the flow's handler marks the job FAILED); no
staging rows, Issues, links, or contacts are created, and the job's counters
are untouched. -/
theorem claim_C4 :
    jobStatusOf s2res 1 = some JobStatus.FAILED ∧
    s2res.stagings = [] ∧
    s2res.issues = [] ∧
    s2res.issueItems = [] ∧
    s2res.contacts = [] ∧
    (get_by_id s2res 1).map (fun j => (j.totalRows, j.processedRows, j.issueCount)) =
      some (0, 0, 0) := by
  decide

/-! ## C2 — issue resolution bookkeeping -/

theorem has_staging_iff (db : DB) (job_id : Nat) :
    has_staging_records db job_id = true ↔ get_staging_by_job db job_id ≠ [] := by
  unfold has_staging_records get_staging_by_job
  rw [List.any_eq_true]
  constructor
  · rintro ⟨s, hs, hp⟩ hnil
    have : s ∈ db.stagings.filter (fun s => s.jobId == job_id) :=
      List.mem_filter.mpr ⟨hs, hp⟩
    rw [hnil] at this
    cases this
  · intro hne
    rcases List.exists_mem_of_ne_nil _ hne with ⟨s, hs⟩
    rw [List.mem_filter] at hs
    exact ⟨s, hs.1, hs.2⟩

theorem find?_id_self (l : List StagingRec)
    (h : (l.map (fun x => x.id)).Nodup) (s : StagingRec) (hs : s ∈ l) :
    l.find? (fun x => x.id == s.id) = some s := by
  induction l with
  | nil => cases hs
  | cons a as ih =>
      rcases List.mem_cons.mp hs with rfl | hmem
      · simp [List.find?_cons]
      · have hne : a.id ≠ s.id := by
          intro hc
          rw [List.map_cons, List.nodup_cons] at h
          exact h.1 (hc ▸ List.mem_map.mpr ⟨s, hmem, rfl⟩)
        rw [List.find?_cons]
        have : (a.id == s.id) = false := by
          rw [beq_eq_false_iff_ne]
          exact hne
        rw [this]
        exact ih (by
          rw [List.map_cons, List.nodup_cons] at h
          exact h.2) hmem

theorem staging_id_inj (l : List StagingRec)
    (h : (l.map (fun x => x.id)).Nodup) (a b : StagingRec)
    (ha : a ∈ l) (hb : b ∈ l) (hid : a.id = b.id) : a = b := by
  have h1 := find?_id_self l h a ha
  have h2 := find?_id_self l h b hb
  rw [hid] at h1
  rw [h1] at h2
  exact Option.some.inj h2

theorem get_by_id_update_status (db : DB) (j : Nat) (st : JobStatus) :
    get_by_id (update_status db j st) j =
      (get_by_id db j).map (fun x => { x with status := st }) := by
  show List.find? (fun x => x.id == j)
      (updateFirst (fun x => x.id == j) (fun x => { x with status := st }) db.jobs) =
    (List.find? (fun x => x.id == j) db.jobs).map (fun x => { x with status := st })
  exact find?_updateFirst (fun x => x.id == j)
    (fun x => { x with status := st }) (fun x => rfl) db.jobs

theorem jobStatusOf_update_status_self (db : DB) (j : Nat) (st : JobStatus)
    (h : (get_by_id db j).isSome = true) :
    jobStatusOf (update_status db j st) j = some st := by
  unfold jobStatusOf
  rw [get_by_id_update_status]
  rcases Option.isSome_iff_exists.mp h with ⟨job, hjob⟩
  rw [hjob]
  rfl

theorem get_by_id_update_metadata_isSome (db : DB) (j j2 : Nat) (a b c : Option Nat) :
    (get_by_id (update_metadata db j a b c) j2).isSome = (get_by_id db j2).isSome := by
  show (List.find? (fun x => x.id == j2) (updateFirst (fun x => x.id == j) (fun x => { x with totalRows := a.getD x.totalRows, processedRows := b.getD x.processedRows, issueCount := c.getD x.issueCount }) db.jobs)).isSome = (List.find? (fun x => x.id == j2) db.jobs).isSome
  by_cases hj : j2 = j
  · subst hj
    rw [find?_updateFirst (fun x => x.id == j2) (fun x => { x with totalRows := a.getD x.totalRows, processedRows := b.getD x.processedRows, issueCount := c.getD x.issueCount }) (fun x => rfl) db.jobs]
    cases List.find? (fun x => x.id == j2) db.jobs <;> rfl
  · rw [find?_updateFirst_of_ne (fun x => x.id == j) (fun x => x.id == j2) (fun x => { x with totalRows := a.getD x.totalRows, processedRows := b.getD x.processedRows, issueCount := c.getD x.issueCount }) (fun x => rfl) ?hpq db.jobs]
    case hpq =>
      intro x hx
      rw [beq_iff_eq] at hx
      rw [beq_eq_false_iff_ne, hx]
      exact fun hc => hj hc.symm

theorem update_metadata_isSome_self (db : DB) (j : Nat) (a b c : Option Nat)
    (h : (get_by_id db j).isSome = true) :
    (get_by_id (update_metadata db j a b c) j).isSome = true := by
  rw [get_by_id_update_metadata_isSome]
  exact h

/-- Generic frame lemma for a fold whose step touches only its own row's
status (or nothing). -/
theorem stagingFold_frame (σ : StagingRec → StagingStatus) (h : DB → StagingRec → DB)
    (hstep : ∀ d s, (h d s).stagings =
        updateFirst (fun x => x.id == s.id)
          (fun x => { x with status := σ s }) d.stagings ∨
      (h d s).stagings = d.stagings)
    (l : List StagingRec) (d : DB) (i : Nat) (hi : ∀ s ∈ l, s.id ≠ i) :
    stagingById (l.foldl h d) i = stagingById d i := by
  induction l generalizing d with
  | nil => rfl
  | cons s ss ih =>
      rw [List.foldl_cons]
      rw [ih _ (fun x hx => hi x (List.mem_cons_of_mem s hx))]
      unfold stagingById
      rcases hstep d s with he | he
      · rw [he]
        exact find?_updateFirst_of_ne (fun x => x.id == s.id) (fun x => x.id == i)
          (fun x => { x with status := σ s }) (fun x => rfl)
          (fun x hx => by
            rw [beq_iff_eq] at hx
            rw [beq_eq_false_iff_ne, hx]
            exact hi s (List.mem_cons_self s ss)) d.stagings
      · rw [he]

/-- Generic id/jobId preservation for such a fold. -/
theorem stagingFold_pairs (σ : StagingRec → StagingStatus) (h : DB → StagingRec → DB)
    (hstep : ∀ d s, (h d s).stagings =
        updateFirst (fun x => x.id == s.id)
          (fun x => { x with status := σ s }) d.stagings ∨
      (h d s).stagings = d.stagings)
    (l : List StagingRec) (d : DB) :
    (l.foldl h d).stagings.map (fun x => (x.id, x.jobId)) =
      d.stagings.map (fun x => (x.id, x.jobId)) := by
  induction l generalizing d with
  | nil => rfl
  | cons s ss ih =>
      rw [List.foldl_cons, ih]
      rcases hstep d s with he | he
      · rw [he]
        exact updateFirst_map (fun x => x.id == s.id) (fun x => { x with status := σ s })
          (fun x => (x.id, x.jobId)) (fun x => rfl) d.stagings
      · rw [he]

/-- Generic per-row outcome for such a fold: under distinct ids, each listed
row ends with status `σ s` (steps that leave the table untouched certify
`σ s = s.status`). -/
theorem stagingFold_post (σ : StagingRec → StagingStatus) (h : DB → StagingRec → DB)
    (hstep : ∀ d s, (h d s).stagings =
        updateFirst (fun x => x.id == s.id)
          (fun x => { x with status := σ s }) d.stagings ∨
      ((h d s).stagings = d.stagings ∧ σ s = s.status))
    (l : List StagingRec) (d : DB)
    (hl : (l.map (fun x => x.id)).Nodup)
    (hmem : ∀ s ∈ l, stagingById d s.id = some s) :
    ∀ s ∈ l, stagingById (l.foldl h d) s.id = some { s with status := σ s } := by
  induction l generalizing d with
  | nil => intro s hs; cases hs
  | cons a as ih =>
      have hstep' : ∀ d s, (h d s).stagings =
          updateFirst (fun x => x.id == s.id)
            (fun x => { x with status := σ s }) d.stagings ∨
          (h d s).stagings = d.stagings :=
        fun d s => (hstep d s).imp id And.left
      have hnodtail : (as.map (fun x => x.id)).Nodup := by
        rw [List.map_cons, List.nodup_cons] at hl
        exact hl.2
      have hahead : a.id ∉ as.map (fun x => x.id) := by
        rw [List.map_cons, List.nodup_cons] at hl
        exact hl.1
      intro s hs
      rw [List.foldl_cons]
      rcases List.mem_cons.mp hs with rfl | hmem2
      · -- the head row: handled by the first step, untouched afterwards
        rw [stagingFold_frame σ h hstep' as (h d s) s.id
          (fun x hx hc => hahead (hc ▸ List.mem_map.mpr ⟨x, hx, rfl⟩))]
        unfold stagingById
        rcases hstep d s with he | ⟨he, hσ⟩
        · rw [he, find?_updateFirst (fun x => x.id == s.id)
            (fun x => { x with status := σ s }) (fun x => rfl) d.stagings]
          have := hmem s (List.mem_cons_self s as)
          unfold stagingById at this
          rw [this]
          rfl
        · rw [he]
          have := hmem s (List.mem_cons_self s as)
          unfold stagingById at this
          rw [this, hσ]
      · -- a later row: its start state is unchanged by the head step
        refine ih (h d a) hnodtail ?_ s hmem2
        intro t ht
        have hne : a.id ≠ t.id := by
          intro hc
          exact hahead (hc ▸ List.mem_map.mpr ⟨t, ht, rfl⟩)
        unfold stagingById
        rcases hstep' d a with he | he
        · rw [he, find?_updateFirst_of_ne (fun x => x.id == a.id) (fun x => x.id == t.id)
            (fun x => { x with status := σ a }) (fun x => rfl)
            (fun x hx => by
              rw [beq_iff_eq] at hx
              rw [beq_eq_false_iff_ne, hx]
              exact hne) d.stagings]
          exact hmem t (List.mem_cons_of_mem a ht)
        · rw [he]
          exact hmem t (List.mem_cons_of_mem a ht)

theorem staging_update_status_stagings_eq (db : DB) (sid : Nat) (st : StagingStatus) :
    (staging_update_status db sid st).stagings =
      updateFirst (fun x => x.id == sid) (fun x => { x with status := st }) db.stagings := rfl

theorem foldl_checkmark_stagings (l : List IssueRec) (db : DB) :
    (l.foldl (fun d i => if i.resolved then d else (check_and_mark_resolved d i.id).2)
      db).stagings = db.stagings := by
  induction l generalizing db with
  | nil => rfl
  | cons i is ih =>
      rw [List.foldl_cons, ih]
      by_cases hi : i.resolved <;> simp [hi]

theorem foldl_checkmark_jobs (l : List IssueRec) (db : DB) :
    (l.foldl (fun d i => if i.resolved then d else (check_and_mark_resolved d i.id).2)
      db).jobs = db.jobs := by
  induction l generalizing db with
  | nil => rfl
  | cons i is ih =>
      rw [List.foldl_cons, ih]
      by_cases hi : i.resolved <;> simp [hi]

theorem reprocessRowStep_jobs (job_id : Nat) (dup exist : List String)
    (acc : DB × FlowCounts) (s : StagingRec) :
    ((reprocessRowStep job_id dup exist acc s).1).jobs = acc.1.jobs := by
  rcases acc with ⟨db, c⟩
  unfold reprocessRowStep
  dsimp only
  by_cases hd : (s.status == StagingStatus.DISCARD) = true
  · rw [if_pos hd]
  · rw [if_neg hd]
    cases hv : validate_row (buildRowData s) dup exist with
    | valid =>
        dsimp only
        rw [foldl_checkmark_jobs, staging_update_status_jobs]
    | invalid t m =>
        dsimp only
        rw [staging_update_status_jobs, link_staging_to_issue_jobs]
        split
        all_goals try split
        all_goals try split
        all_goals simp

theorem reprocessRowStep_stagings_eq (job_id : Nat) (dup exist : List String)
    (acc : DB × FlowCounts) (s : StagingRec) :
    ((reprocessRowStep job_id dup exist acc s).1).stagings =
      if (s.status == StagingStatus.DISCARD) = true then acc.1.stagings
      else updateFirst (fun x => x.id == s.id)
        (fun x => { x with status := reprocessPostStatus dup exist s })
        acc.1.stagings := by
  rcases acc with ⟨db, c⟩
  unfold reprocessRowStep
  dsimp only
  by_cases hd : (s.status == StagingStatus.DISCARD) = true
  · rw [if_pos hd, if_pos hd]
  · rw [if_neg hd, if_neg hd]
    cases hv : validate_row (buildRowData s) dup exist with
    | valid =>
        have hps : reprocessPostStatus dup exist s = StagingStatus.READY := by
          unfold reprocessPostStatus
          rw [if_neg hd, hv]
          rfl
        rw [hps]
        dsimp only
        rw [foldl_checkmark_stagings, staging_update_status_stagings_eq]
    | invalid t m =>
        have hps : reprocessPostStatus dup exist s = StagingStatus.ISSUE := by
          unfold reprocessPostStatus
          rw [if_neg hd, hv]
          rfl
        rw [hps]
        dsimp only
        rw [staging_update_status_stagings_eq]
        rw [link_staging_to_issue_stagings]
        split
        all_goals try split
        all_goals try split
        all_goals simp

theorem reprocessRowStep_issues_count (job_id : Nat) (dup exist : List String)
    (acc : DB × FlowCounts) (s : StagingRec) :
    ((reprocessRowStep job_id dup exist acc s).2).issues =
      acc.2.issues + (if (s.status == StagingStatus.DISCARD) = true then 0
        else if (validate_row (buildRowData s) dup exist).is_valid = true then 0
        else 1) := by
  rcases acc with ⟨db, c⟩
  unfold reprocessRowStep
  dsimp only
  by_cases hd : (s.status == StagingStatus.DISCARD) = true
  · simp [hd]
  · rw [if_neg hd, if_neg hd]
    cases hv : validate_row (buildRowData s) dup exist with
    | valid => simp [ValidationResult.is_valid]
    | invalid t m => simp [ValidationResult.is_valid]

theorem reprocessRowStep_fst_indep (job_id : Nat) (dup exist : List String)
    (db : DB) (c c' : FlowCounts) (s : StagingRec) :
    (reprocessRowStep job_id dup exist (db, c) s).1 =
      (reprocessRowStep job_id dup exist (db, c') s).1 := by
  unfold reprocessRowStep
  dsimp only
  by_cases hd : (s.status == StagingStatus.DISCARD) = true
  · rw [if_pos hd, if_pos hd]
  · rw [if_neg hd, if_neg hd]
    cases hv : validate_row (buildRowData s) dup exist with
    | valid => dsimp only
    | invalid t m => dsimp only

/-- The database component of the reprocess loop, as a fold on `DB` alone (the
counters never influence the database writes). -/
theorem reprocess_fold_fst (job_id : Nat) (dup exist : List String)
    (l : List StagingRec) (db : DB) (c : FlowCounts) :
    ((l.foldl (reprocessRowStep job_id dup exist) (db, c)).1) =
      l.foldl (fun d s => (reprocessRowStep job_id dup exist (d, ⟨0, 0, 0, 0⟩) s).1) db := by
  induction l generalizing db c with
  | nil => rfl
  | cons s ss ih =>
      rw [List.foldl_cons, List.foldl_cons]
      have hpair : reprocessRowStep job_id dup exist (db, c) s =
          ((reprocessRowStep job_id dup exist (db, c) s).1,
           (reprocessRowStep job_id dup exist (db, c) s).2) := rfl
      rw [hpair, ih]
      rw [reprocessRowStep_fst_indep job_id dup exist db c ⟨0, 0, 0, 0⟩ s]

theorem reprocess_fold_issues (job_id : Nat) (dup exist : List String)
    (l : List StagingRec) (db : DB) (c : FlowCounts) :
    ((l.foldl (reprocessRowStep job_id dup exist) (db, c)).2).issues =
      c.issues + reprocessNewIssues dup exist l := by
  induction l generalizing db c with
  | nil => simp [reprocessNewIssues]
  | cons s ss ih =>
      rw [List.foldl_cons]
      have hpair : reprocessRowStep job_id dup exist (db, c) s =
          ((reprocessRowStep job_id dup exist (db, c) s).1,
           (reprocessRowStep job_id dup exist (db, c) s).2) := rfl
      rw [hpair, ih]
      rw [reprocessRowStep_issues_count]
      unfold reprocessNewIssues
      rw [List.filter_cons]
      by_cases hd : (s.status == StagingStatus.DISCARD) = true
      · simp [hd]
      · by_cases hv : (validate_row (buildRowData s) dup exist).is_valid = true
        · simp [hd, hv]
        · simp [hd, hv]
          omega

theorem get_by_id_update_metadata_self (db : DB) (j : Nat) (a b c : Option Nat) :
    get_by_id (update_metadata db j a b c) j =
      (get_by_id db j).map (fun x => { x with totalRows := a.getD x.totalRows, processedRows := b.getD x.processedRows, issueCount := c.getD x.issueCount }) := by
  show List.find? (fun x => x.id == j) (updateFirst (fun x => x.id == j) (fun x => { x with totalRows := a.getD x.totalRows, processedRows := b.getD x.processedRows, issueCount := c.getD x.issueCount }) db.jobs) = (List.find? (fun x => x.id == j) db.jobs).map (fun x => { x with totalRows := a.getD x.totalRows, processedRows := b.getD x.processedRows, issueCount := c.getD x.issueCount })
  exact find?_updateFirst (fun x => x.id == j) (fun x => { x with totalRows := a.getD x.totalRows, processedRows := b.getD x.processedRows, issueCount := c.getD x.issueCount }) (fun x => rfl) db.jobs

theorem get_by_id_of_jobs_eq (db1 db2 : DB) (j : Nat) (h : db1.jobs = db2.jobs) :
    get_by_id db1 j = get_by_id db2 j := by
  unfold get_by_id
  rw [h]

theorem map_id_eq_of_pairs (l1 l2 : List StagingRec)
    (h : l1.map (fun x => (x.id, x.jobId)) = l2.map (fun x => (x.id, x.jobId))) :
    l1.map (fun x => x.id) = l2.map (fun x => x.id) := by
  have h1 : l1.map (fun x => x.id) =
      (l1.map (fun x => (x.id, x.jobId))).map Prod.fst := by
    rw [List.map_map]
    rfl
  have h2 : l2.map (fun x => x.id) =
      (l2.map (fun x => (x.id, x.jobId))).map Prod.fst := by
    rw [List.map_map]
    rfl
  rw [h1, h2, h]

/-- Consolidation from a state where every staging row of the job is READY or
DISCARD: if the job comes out COMPLETED, every row of the job ends SUCCESS or
DISCARD.  (COMPLETED arises from the no-READY-rows shortcut, or after a batch
creation in which every record hit the caught `ValueError` — the only kind of
successful batch — followed by the SUCCESS promotion of the READY rows;
a batch that reaches the contact construction crashes and the handler marks
the job FAILED instead.) -/
theorem consolidate_of_completed (db : DB) (job_id : Nat) (job : JobRec)
    (hids : (db.stagings.map (fun x => x.id)).Nodup)
    (hjob : get_by_id db job_id = some job)
    (hall : ∀ s ∈ db.stagings, s.jobId = job_id →
      s.status = StagingStatus.READY ∨ s.status = StagingStatus.DISCARD) :
    jobStatusOf (consolidate db job_id) job_id = some JobStatus.COMPLETED →
    ∀ s ∈ (consolidate db job_id).stagings, s.jobId = job_id →
      s.status = StagingStatus.SUCCESS ∨ s.status = StagingStatus.DISCARD := by
  unfold consolidate
  rw [hjob]
  dsimp only
  by_cases hready : (get_ready_for_consolidation db job_id).isEmpty = true
  · rw [if_pos hready]
    intro _ s hs hsj
    rw [update_status_stagings] at hs
    rcases hall s hs hsj with hR | hD
    · exfalso
      have hmem : s ∈ get_ready_for_consolidation db job_id := by
        unfold get_ready_for_consolidation
        rw [List.mem_filter]
        exact ⟨hs, by simp [hsj, hR]⟩
      rw [List.isEmpty_iff.mp hready] at hmem
      cases hmem
    · exact Or.inr hD
  · rw [if_neg hready]
    cases hb : batch_create_from_staging db (get_ready_for_consolidation db job_id)
        job.userId with
    | error e =>
        dsimp only
        intro hC
        exfalso
        rw [jobStatusOf_update_status_self db job_id JobStatus.FAILED
          (by rw [hjob]; rfl)] at hC
        exact JobStatus.noConfusion (Option.some.inj hC)
    | ok r =>
        obtain ⟨lc, db1⟩ := r
        dsimp only
        have hr := batch_create_from_staging_ok db
          (get_ready_for_consolidation db job_id) job.userId (lc, db1) hb
        have hdb1 : db1 = db := congrArg Prod.snd hr
        rw [hdb1]
        have hstep : ∀ (d : DB) (s : StagingRec),
            ((fun d s => staging_update_status d s.id StagingStatus.SUCCESS) d s).stagings =
              updateFirst (fun x => x.id == s.id)
                (fun x => { x with status := StagingStatus.SUCCESS }) d.stagings ∨
            (((fun d s => staging_update_status d s.id StagingStatus.SUCCESS) d s).stagings =
              d.stagings ∧ StagingStatus.SUCCESS = s.status) :=
          fun d s => Or.inl (staging_update_status_stagings_eq d s.id StagingStatus.SUCCESS)
        have hstep' : ∀ (d : DB) (s : StagingRec),
            ((fun d s => staging_update_status d s.id StagingStatus.SUCCESS) d s).stagings =
              updateFirst (fun x => x.id == s.id)
                (fun x => { x with status := StagingStatus.SUCCESS }) d.stagings ∨
            ((fun d s => staging_update_status d s.id StagingStatus.SUCCESS) d s).stagings =
              d.stagings :=
          fun d s => Or.inl (staging_update_status_stagings_eq d s.id StagingStatus.SUCCESS)
        set ready := get_ready_for_consolidation db job_id with hreadydef
        set db2 := ready.foldl
          (fun d s => staging_update_status d s.id StagingStatus.SUCCESS) db with hdb2
        have hready_sub : ∀ s ∈ ready, s ∈ db.stagings ∧ s.jobId = job_id ∧
            s.status = StagingStatus.READY := by
          intro s hs
          rw [hreadydef] at hs
          unfold get_ready_for_consolidation at hs
          rw [List.mem_filter] at hs
          rcases hs with ⟨hm, hcond⟩
          rw [Bool.and_eq_true, beq_iff_eq, beq_iff_eq] at hcond
          exact ⟨hm, hcond.1, hcond.2⟩
        have hreadyids : (ready.map (fun x => x.id)).Nodup := by
          have hsub : List.Sublist ready db.stagings := by
            rw [hreadydef]
            exact List.filter_sublist _
          exact List.Nodup.sublist (List.Sublist.map (fun x => x.id) hsub) hids
        have hmem1 : ∀ s ∈ ready, stagingById db s.id = some s := by
          intro s hs
          unfold stagingById
          exact find?_id_self db.stagings hids s (hready_sub s hs).1
        have hpost : ∀ s ∈ ready, stagingById db2 s.id =
            some { s with status := StagingStatus.SUCCESS } := by
          rw [hdb2]
          exact stagingFold_post (fun _ => StagingStatus.SUCCESS) _ hstep ready db
            hreadyids hmem1
        have hpairs : db2.stagings.map (fun x => (x.id, x.jobId)) =
            db.stagings.map (fun x => (x.id, x.jobId)) := by
          rw [hdb2]
          rw [stagingFold_pairs (fun _ => StagingStatus.SUCCESS) _ hstep' ready db]
        have hids2 : (db2.stagings.map (fun x => x.id)).Nodup := by
          rw [map_id_eq_of_pairs db2.stagings db.stagings hpairs]
          exact hids
        intro _ s hs hsj
        rw [update_status_stagings] at hs
        have hfound : stagingById db2 s.id = some s := by
          unfold stagingById
          exact find?_id_self db2.stagings hids2 s hs
        have hidmem : s.id ∈ db.stagings.map (fun x => x.id) := by
          rw [← map_id_eq_of_pairs db2.stagings db.stagings hpairs]
          exact List.mem_map.mpr ⟨s, hs, rfl⟩
        rcases List.mem_map.mp hidmem with ⟨s0, hs0mem, hs0id⟩
        by_cases hs0r : s0 ∈ ready
        · have hp := hpost s0 hs0r
          rw [← hs0id] at hfound
          rw [hp] at hfound
          have heq := Option.some.inj hfound
          rw [← heq]
          exact Or.inl rfl
        · have hframe : stagingById db2 s0.id = stagingById db s0.id := by
            rw [hdb2]
            refine stagingFold_frame (fun _ => StagingStatus.SUCCESS) _ hstep' ready db
              s0.id ?_
            intro t ht hc
            exact hs0r (by
              have : t = s0 := staging_id_inj db.stagings hids t s0
                (hready_sub t ht).1 hs0mem hc
              rw [← this]
              exact ht)
          have hb1 : stagingById db s0.id = some s0 := by
            unfold stagingById
            exact find?_id_self db.stagings hids s0 hs0mem
          rw [← hs0id] at hfound
          rw [hframe, hb1] at hfound
          have heq := Option.some.inj hfound
          subst heq
          rcases hall s0 hs0mem hsj with hR | hD
          · exfalso
            apply hs0r
            rw [hreadydef]
            unfold get_ready_for_consolidation
            rw [List.mem_filter]
            exact ⟨hs0mem, by simp [hsj, hR]⟩
          · exact Or.inr hD

theorem reprocess_fold_jobs (job_id : Nat) (dup exist : List String)
    (l : List StagingRec) (db : DB) :
    (l.foldl (fun d s =>
      (reprocessRowStep job_id dup exist (d, (⟨0, 0, 0, 0⟩ : FlowCounts)) s).1) db).jobs
      = db.jobs := by
  induction l generalizing db with
  | nil => rfl
  | cons s ss ih =>
      rw [List.foldl_cons, ih, reprocessRowStep_jobs]

/-- `reprocessFinish` written with the loop's database and issue counter in
closed form. -/
theorem reprocessFinish_eq (db : DB) (job_id : Nat) (dup exist : List String)
    (snapshot : List StagingRec) :
    reprocessFinish db job_id dup exist snapshot =
      (if 0 < reprocessNewIssues dup exist snapshot
       then update_status (update_metadata
         (snapshot.foldl (fun d s =>
           (reprocessRowStep job_id dup exist (d, (⟨0, 0, 0, 0⟩ : FlowCounts)) s).1) db)
         job_id none
         (some ((snapshot.foldl (reprocessRowStep job_id dup exist)
           (db, (⟨0, 0, 0, 0⟩ : FlowCounts))).2.processed))
         (some (reprocessNewIssues dup exist snapshot)))
         job_id JobStatus.NEEDS_REVIEW
       else consolidate (update_metadata
         (snapshot.foldl (fun d s =>
           (reprocessRowStep job_id dup exist (d, (⟨0, 0, 0, 0⟩ : FlowCounts)) s).1) db)
         job_id none
         (some ((snapshot.foldl (reprocessRowStep job_id dup exist)
           (db, (⟨0, 0, 0, 0⟩ : FlowCounts))).2.processed))
         (some (reprocessNewIssues dup exist snapshot)))
         job_id) := by
  unfold reprocessFinish
  dsimp only
  have hI : (snapshot.foldl (reprocessRowStep job_id dup exist)
      (db, (⟨0, 0, 0, 0⟩ : FlowCounts))).2.issues =
      reprocessNewIssues dup exist snapshot := by
    rw [reprocess_fold_issues]
    exact Nat.zero_add _
  rw [reprocess_fold_fst, hI]

/-- Endgame of the reprocess pass from any snapshot-consistent state: a
COMPLETED outcome forces every staging row of the job to SUCCESS or DISCARD.
(A pass with a re-flagged row goes NEEDS_REVIEW; one without hands off to
consolidation, whose COMPLETED outcomes `consolidate_of_completed` covers.) -/
theorem reprocessFinish_outcome (db0 : DB) (job_id : Nat) (dup exist : List String)
    (job0 : JobRec)
    (hids : (db0.stagings.map (fun x => x.id)).Nodup)
    (hjob : get_by_id db0 job_id = some job0) :
    jobStatusOf (reprocessFinish db0 job_id dup exist
        (get_staging_by_job db0 job_id)) job_id = some JobStatus.COMPLETED →
      ∀ s ∈ (reprocessFinish db0 job_id dup exist
          (get_staging_by_job db0 job_id)).stagings,
        s.jobId = job_id →
          s.status = StagingStatus.SUCCESS ∨ s.status = StagingStatus.DISCARD := by
  set snap := get_staging_by_job db0 job_id with hsnapd
  have hsnapiff : ∀ s : StagingRec, s ∈ snap ↔ (s ∈ db0.stagings ∧ s.jobId = job_id) := by
    intro s
    rw [hsnapd]
    unfold get_staging_by_job
    rw [List.mem_filter, beq_iff_eq]
  have hstep : ∀ (d : DB) (s : StagingRec),
      ((fun d s => (reprocessRowStep job_id dup exist
          (d, (⟨0, 0, 0, 0⟩ : FlowCounts)) s).1) d s).stagings =
        updateFirst (fun x => x.id == s.id)
          (fun x => { x with status := reprocessPostStatus dup exist s }) d.stagings ∨
      (((fun d s => (reprocessRowStep job_id dup exist
          (d, (⟨0, 0, 0, 0⟩ : FlowCounts)) s).1) d s).stagings = d.stagings ∧
        reprocessPostStatus dup exist s = s.status) := by
    intro d s
    dsimp only
    rw [reprocessRowStep_stagings_eq]
    by_cases hd : (s.status == StagingStatus.DISCARD) = true
    · refine Or.inr ⟨by rw [if_pos hd], ?_⟩
      unfold reprocessPostStatus
      rw [if_pos hd]
    · refine Or.inl ?_
      rw [if_neg hd]
  have hstep' : ∀ (d : DB) (s : StagingRec),
      ((fun d s => (reprocessRowStep job_id dup exist
          (d, (⟨0, 0, 0, 0⟩ : FlowCounts)) s).1) d s).stagings =
        updateFirst (fun x => x.id == s.id)
          (fun x => { x with status := reprocessPostStatus dup exist s }) d.stagings ∨
      ((fun d s => (reprocessRowStep job_id dup exist
          (d, (⟨0, 0, 0, 0⟩ : FlowCounts)) s).1) d s).stagings = d.stagings :=
    fun d s => (hstep d s).imp id And.left
  have hsnapids : (snap.map (fun x => x.id)).Nodup := by
    have hsub : List.Sublist snap db0.stagings := by
      rw [hsnapd]
      unfold get_staging_by_job
      exact List.filter_sublist _
    exact List.Nodup.sublist (List.Sublist.map (fun x => x.id) hsub) hids
  have hmem0 : ∀ s ∈ snap, stagingById db0 s.id = some s := by
    intro s hs
    unfold stagingById
    exact find?_id_self db0.stagings hids s ((hsnapiff s).mp hs).1
  set db1 := snap.foldl (fun d s =>
    (reprocessRowStep job_id dup exist (d, (⟨0, 0, 0, 0⟩ : FlowCounts)) s).1) db0
    with hdb1d
  have hjobs1 : db1.jobs = db0.jobs := by
    rw [hdb1d]
    exact reprocess_fold_jobs job_id dup exist snap db0
  have hpairs : db1.stagings.map (fun x => (x.id, x.jobId)) =
      db0.stagings.map (fun x => (x.id, x.jobId)) := by
    rw [hdb1d]
    exact stagingFold_pairs (reprocessPostStatus dup exist) _ hstep' snap db0
  have hids1 : (db1.stagings.map (fun x => x.id)).Nodup := by
    rw [map_id_eq_of_pairs db1.stagings db0.stagings hpairs]
    exact hids
  have hpost : ∀ s ∈ snap, stagingById db1 s.id =
      some { s with status := reprocessPostStatus dup exist s } := by
    rw [hdb1d]
    exact stagingFold_post (reprocessPostStatus dup exist) _ hstep snap db0
      hsnapids hmem0
  set db3 := update_metadata db1 job_id none
    (some ((snap.foldl (reprocessRowStep job_id dup exist)
      (db0, (⟨0, 0, 0, 0⟩ : FlowCounts))).2.processed))
    (some (reprocessNewIssues dup exist snap)) with hdb3d
  have hstag3 : db3.stagings = db1.stagings := by
    rw [hdb3d]
    exact update_metadata_stagings db1 job_id _ _ _
  have hids3 : (db3.stagings.map (fun x => x.id)).Nodup := by
    rw [hstag3]
    exact hids1
  have hjob1 : get_by_id db1 job_id = some job0 := by
    rw [get_by_id_of_jobs_eq db1 db0 job_id hjobs1]
    exact hjob
  obtain ⟨job3, hjob3⟩ : ∃ j, get_by_id db3 job_id = some j := by
    rw [hdb3d, get_by_id_update_metadata_self, hjob1]
    exact ⟨_, rfl⟩
  by_cases h0 : 0 < reprocessNewIssues dup exist snap
  · rw [reprocessFinish_eq, ← hdb1d, ← hdb3d, if_pos h0]
    intro hC
    exfalso
    rw [jobStatusOf_update_status_self db3 job_id JobStatus.NEEDS_REVIEW
      (by rw [hjob3]; rfl)] at hC
    exact JobStatus.noConfusion (Option.some.inj hC)
  · have h0' : reprocessNewIssues dup exist snap = 0 := by omega
    have hall3 : ∀ s ∈ db3.stagings, s.jobId = job_id →
        s.status = StagingStatus.READY ∨ s.status = StagingStatus.DISCARD := by
      intro s hs hsj
      rw [hstag3] at hs
      have hpair_mem : (s.id, s.jobId) ∈ db0.stagings.map (fun x => (x.id, x.jobId)) := by
        rw [← hpairs]
        exact List.mem_map.mpr ⟨s, hs, rfl⟩
      rcases List.mem_map.mp hpair_mem with ⟨s0, hs0mem, hs0eq⟩
      have hs0id : s0.id = s.id := congrArg Prod.fst hs0eq
      have hs0j : s0.jobId = job_id := by
        have hsnd : s0.jobId = s.jobId := congrArg Prod.snd hs0eq
        rw [hsnd, hsj]
      have hs0snap : s0 ∈ snap := (hsnapiff s0).mpr ⟨hs0mem, hs0j⟩
      have hfound : stagingById db1 s.id = some s := by
        unfold stagingById
        exact find?_id_self db1.stagings hids1 s hs
      rw [← hs0id, hpost s0 hs0snap] at hfound
      have heq := Option.some.inj hfound
      rw [← heq]
      dsimp only
      by_cases hd : (s0.status == StagingStatus.DISCARD) = true
      · refine Or.inr ?_
        unfold reprocessPostStatus
        rw [if_pos hd]
        exact beq_iff_eq.mp hd
      · have hnil : (snap.filter (fun x => !(x.status == StagingStatus.DISCARD) &&
            !(validate_row (buildRowData x) dup exist).is_valid)) = [] := by
          unfold reprocessNewIssues at h0'
          exact List.length_eq_zero.mp h0'
        have hnotmem : s0 ∉ (snap.filter (fun x => !(x.status == StagingStatus.DISCARD) &&
            !(validate_row (buildRowData x) dup exist).is_valid)) := by
          rw [hnil]
          exact List.not_mem_nil s0
        have hnc : ¬((!(s0.status == StagingStatus.DISCARD) &&
            !(validate_row (buildRowData s0) dup exist).is_valid) = true) :=
          fun hc => hnotmem (List.mem_filter.mpr ⟨hs0snap, hc⟩)
        have hv : (validate_row (buildRowData s0) dup exist).is_valid = true := by
          rcases hb : (validate_row (buildRowData s0) dup exist).is_valid with _ | _
          · exfalso
            apply hnc
            rw [Bool.and_eq_true, Bool.not_eq_true', Bool.not_eq_true']
            refine ⟨?_, hb⟩
            simp at hd
            rw [beq_eq_false_iff_ne]
            exact hd
          · rfl
        refine Or.inl ?_
        unfold reprocessPostStatus
        rw [if_neg hd, if_pos hv]
    rw [reprocessFinish_eq, ← hdb1d, ← hdb3d, if_neg h0]
    exact consolidate_of_completed db3 job_id job3 hids3 hjob3 hall3

/-- Shape of one initial-loop iteration: either a hash-duplicate skip, or a
fresh staging row for this job is appended — READY with the issue counter kept
(valid row), or with the issue counter bumped (invalid row). -/
theorem initialRowStep_props (job_id : Nat) (dup exist : List String)
    (db : DB) (processed issues : Nat) (nr : Nat × Row) :
    (initialRowStep job_id dup exist (db, processed, issues) nr =
      (db, processed, issues)) ∨
    (∃ s' : StagingRec,
      (initialRowStep job_id dup exist (db, processed, issues) nr).1.stagings =
        db.stagings ++ [s'] ∧
      s'.id = freshId (db.stagings.map (fun x => x.id)) ∧
      s'.jobId = job_id ∧
      (initialRowStep job_id dup exist (db, processed, issues) nr).1.jobs = db.jobs ∧
      ((s'.status = StagingStatus.READY ∧
        (initialRowStep job_id dup exist (db, processed, issues) nr).2.2 = issues) ∨
       (initialRowStep job_id dup exist (db, processed, issues) nr).2.2 =
         issues + 1)) := by
  rcases nr with ⟨row_number, row_data⟩
  unfold initialRowStep staging_create
  dsimp only
  by_cases hex : exists_by_hash db job_id
      (generate_row_hash job_id row_number row_data) = true
  · rw [if_pos hex]
    exact Or.inl rfl
  · rw [if_neg hex]
    have hleft : ∀ x ∈ db.stagings,
        (x.id == freshId (db.stagings.map (fun y => y.id))) = false := by
      intro x hx
      rw [beq_eq_false_iff_ne]
      intro hc
      exact freshId_not_mem (db.stagings.map (fun y => y.id))
        (hc ▸ List.mem_map.mpr ⟨x, hx, rfl⟩)
    cases hv : validate_row row_data dup exist with
    | valid =>
        dsimp only
        refine Or.inr ⟨{
          id := freshId (db.stagings.map (fun x => x.id)),
          jobId := job_id,
          email := dictGetD row_data "email",
          firstName := dictGetD row_data "first_name",
          lastName := dictGetD row_data "last_name",
          company := dictGetD row_data "company",
          rowHash := generate_row_hash job_id row_number row_data,
          status := StagingStatus.READY }, ?_, rfl, rfl, ?_, Or.inl ⟨rfl, rfl⟩⟩
        · rw [staging_update_status_stagings_eq]
          dsimp only
          rw [updateFirst_append_left_none
            (fun x => x.id == freshId (db.stagings.map (fun y => y.id)))
            (fun x => { x with status := StagingStatus.READY })
            db.stagings _ hleft]
          rw [updateFirst_cons]
          rw [if_pos (by simp)]
        · rw [staging_update_status_jobs]
    | invalid t msg =>
        dsimp only
        refine Or.inr ⟨{
          id := freshId (db.stagings.map (fun x => x.id)),
          jobId := job_id,
          email := dictGetD row_data "email",
          firstName := dictGetD row_data "first_name",
          lastName := dictGetD row_data "last_name",
          company := dictGetD row_data "company",
          rowHash := generate_row_hash job_id row_number row_data,
          status := StagingStatus.ISSUE }, ?_, rfl, rfl, ?_, Or.inr rfl⟩
        · rw [link_staging_to_issue_stagings, issue_get_or_create_stagings]
        · rw [link_staging_to_issue_jobs, issue_get_or_create_jobs]

/-- Invariant of the initial-flow row loop: staging ids stay distinct, the
jobs table is untouched, and if the loop ends with a zero issue counter then
every staging row of the job is READY. -/
theorem initial_fold_inv (job_id : Nat) (dup exist : List String)
    (l : List (Nat × Row)) (db : DB) (processed issues : Nat)
    (hids : (db.stagings.map (fun x => x.id)).Nodup)
    (hready : issues = 0 → ∀ s ∈ db.stagings, s.jobId = job_id →
      s.status = StagingStatus.READY) :
    (((l.foldl (initialRowStep job_id dup exist) (db, processed, issues)).1).stagings.map
      (fun x => x.id)).Nodup ∧
    ((l.foldl (initialRowStep job_id dup exist) (db, processed, issues)).1).jobs =
      db.jobs ∧
    ((l.foldl (initialRowStep job_id dup exist) (db, processed, issues)).2.2 = 0 →
      ∀ s ∈ ((l.foldl (initialRowStep job_id dup exist) (db, processed, issues)).1).stagings,
        s.jobId = job_id → s.status = StagingStatus.READY) := by
  induction l generalizing db processed issues with
  | nil => exact ⟨hids, rfl, hready⟩
  | cons nr rest ih =>
      rw [List.foldl_cons]
      rcases initialRowStep_props job_id dup exist db processed issues nr with
        hskip | ⟨s', hst, hid, hjid, hjobs, hcase⟩
      · rw [hskip]
        exact ih db processed issues hids hready
      · have hfresh : s'.id ∉ db.stagings.map (fun x => x.id) := by
          rw [hid]
          exact freshId_not_mem _
        have hids2 : ((db.stagings ++ [s']).map (fun x => x.id)).Nodup := by
          rw [List.map_append, List.nodup_append]
          refine ⟨hids, List.nodup_singleton _, ?_⟩
          intro a ha hb
          simp only [List.map_cons, List.map_nil, List.mem_singleton] at hb
          exact hfresh (hb ▸ ha)
        have hready2 : (initialRowStep job_id dup exist (db, processed, issues) nr).2.2 = 0 →
            ∀ s ∈ db.stagings ++ [s'], s.jobId = job_id →
              s.status = StagingStatus.READY := by
          intro h0 s hs hsj
          rcases hcase with ⟨hstatR, hcnt⟩ | hcnt
          · rcases List.mem_append.mp hs with hold | hnew
            · rw [hcnt] at h0
              exact hready h0 s hold hsj
            · rw [List.mem_singleton] at hnew
              rw [hnew, hstatR]
          · rw [hcnt] at h0
            exact absurd h0 (Nat.succ_ne_zero issues)
        obtain ⟨ha, hb, hc⟩ := ih
          (initialRowStep job_id dup exist (db, processed, issues) nr).1
          (initialRowStep job_id dup exist (db, processed, issues) nr).2.1
          (initialRowStep job_id dup exist (db, processed, issues) nr).2.2
          (by rw [hst]; exact hids2)
          (by
            intro h0 s hs hsj
            rw [hst] at hs
            exact hready2 h0 s hs hsj)
        exact ⟨ha, hb.trans hjobs, hc⟩

/-- Endgame of the initial pass on a job with no pre-existing staging rows: a
COMPLETED outcome forces every staging row of the job to SUCCESS or DISCARD. -/
theorem initialFinish_outcome (db0 : DB) (job_id : Nat) (dup exist : List String)
    (rows : List Row) (job0 : JobRec)
    (hids : (db0.stagings.map (fun x => x.id)).Nodup)
    (hjob : get_by_id db0 job_id = some job0)
    (hnostag : ∀ s ∈ db0.stagings, s.jobId ≠ job_id) :
    jobStatusOf (initialFinish db0 job_id dup exist rows) job_id =
        some JobStatus.COMPLETED →
      ∀ s ∈ (initialFinish db0 job_id dup exist rows).stagings, s.jobId = job_id →
        s.status = StagingStatus.SUCCESS ∨ s.status = StagingStatus.DISCARD := by
  obtain ⟨hids1, hjobs1, hready1⟩ := initial_fold_inv job_id dup exist
    (enumerate1 rows) db0 0 0 hids (fun _ s hs hsj => absurd hsj (hnostag s hs))
  unfold initialFinish
  dsimp only
  set folded := (enumerate1 rows).foldl (initialRowStep job_id dup exist) (db0, 0, 0)
    with hfoldedd
  set db3 := update_metadata folded.1 job_id (some rows.length) (some folded.2.1)
    (some folded.2.2) with hdb3d
  have hstag3 : db3.stagings = folded.1.stagings := by
    rw [hdb3d]
    exact update_metadata_stagings folded.1 job_id _ _ _
  have hids3 : (db3.stagings.map (fun x => x.id)).Nodup := by
    rw [hstag3]
    exact hids1
  have hjob1 : get_by_id folded.1 job_id = some job0 := by
    rw [get_by_id_of_jobs_eq folded.1 db0 job_id hjobs1]
    exact hjob
  obtain ⟨job3, hjob3⟩ : ∃ j, get_by_id db3 job_id = some j := by
    rw [hdb3d, get_by_id_update_metadata_self, hjob1]
    exact ⟨_, rfl⟩
  by_cases hI : folded.2.2 = 0
  · rw [if_neg (by omega)]
    have hall3 : ∀ s ∈ db3.stagings, s.jobId = job_id →
        s.status = StagingStatus.READY ∨ s.status = StagingStatus.DISCARD := by
      intro s hs hsj
      rw [hstag3] at hs
      exact Or.inl (hready1 hI s hs hsj)
    exact consolidate_of_completed db3 job_id job3 hids3 hjob3 hall3
  · rw [if_pos (by omega)]
    intro hC
    exfalso
    rw [jobStatusOf_update_status_self db3 job_id JobStatus.NEEDS_REVIEW
      (by rw [hjob3]; rfl)] at hC
    exact JobStatus.noConfusion (Option.some.inj hC)

/-- C1: amended safety half of the claim.  For a job that exists and is not
already COMPLETED, whenever `process_job` ends with the job COMPLETED, every
staging row of that job is SUCCESS or DISCARD.  The claim's further demand
that every Issue of the job be resolved — equivalently, that the reprocess
pass go to NEEDS_REVIEW whenever an unresolved Issue remains — does not hold
(see the counterexample: an all-DISCARD reprocess pass consolidates to
COMPLETED while an unresolved Issue survives). -/
theorem claim_C1 (db : DB) (job_id : Nat) (rows : List Row) (job : JobRec)
    (hids : (db.stagings.map (fun x => x.id)).Nodup)
    (hjob : get_by_id db job_id = some job)
    (hnc : job.status ≠ JobStatus.COMPLETED) :
    jobStatusOf (process_job db job_id rows) job_id = some JobStatus.COMPLETED →
      ∀ s ∈ (process_job db job_id rows).stagings, s.jobId = job_id →
        s.status = StagingStatus.SUCCESS ∨ s.status = StagingStatus.DISCARD := by
  unfold process_job
  rw [hjob]
  dsimp only
  have hbc : ¬((job.status == JobStatus.COMPLETED) = true) :=
    fun hc => hnc (beq_iff_eq.mp hc)
  rw [if_neg hbc]
  have hjobP : get_by_id (update_status db job_id JobStatus.PROCESSING) job_id =
      some { job with status := JobStatus.PROCESSING } := by
    rw [get_by_id_update_status, hjob]
    rfl
  have hidsP : ((update_status db job_id JobStatus.PROCESSING).stagings.map
      (fun x => x.id)).Nodup := by
    rw [update_status_stagings]
    exact hids
  by_cases hsr : has_staging_records db job_id = true
  · rw [if_pos hsr]
    unfold process_reprocessing
    dsimp only
    by_cases hsE : (get_staging_by_job (update_status db job_id JobStatus.PROCESSING)
        job_id).isEmpty = true
    · rw [if_pos hsE]
      intro hC
      exfalso
      rw [jobStatusOf_update_status_self (update_status db job_id JobStatus.PROCESSING)
        job_id JobStatus.FAILED (by rw [hjobP]; rfl)] at hC
      exact JobStatus.noConfusion (Option.some.inj hC)
    · rw [if_neg hsE, hjobP]
      dsimp only
      have hgen : ∀ (dup : List String) (oexist : Option (List String)),
          jobStatusOf (reprocessWithExist (update_status db job_id JobStatus.PROCESSING)
            job_id dup oexist (get_staging_by_job
              (update_status db job_id JobStatus.PROCESSING) job_id)) job_id =
            some JobStatus.COMPLETED →
          ∀ s ∈ (reprocessWithExist (update_status db job_id JobStatus.PROCESSING)
              job_id dup oexist (get_staging_by_job
                (update_status db job_id JobStatus.PROCESSING) job_id)).stagings,
            s.jobId = job_id →
            s.status = StagingStatus.SUCCESS ∨ s.status = StagingStatus.DISCARD := by
        intro dup oexist
        cases oexist with
        | none =>
            unfold reprocessWithExist
            dsimp only
            intro hC
            exfalso
            rw [jobStatusOf_update_status_self
              (update_status db job_id JobStatus.PROCESSING) job_id JobStatus.FAILED
              (by rw [hjobP]; rfl)] at hC
            exact JobStatus.noConfusion (Option.some.inj hC)
        | some exist =>
            unfold reprocessWithExist
            dsimp only
            exact reprocessFinish_outcome (update_status db job_id JobStatus.PROCESSING)
              job_id dup exist { job with status := JobStatus.PROCESSING } hidsP hjobP
      exact hgen _ _
  · rw [if_neg hsr]
    unfold process_initial
    dsimp only
    by_cases hrE : rows.isEmpty = true
    · rw [if_pos hrE]
      intro hC
      exfalso
      rw [jobStatusOf_update_status_self (update_status db job_id JobStatus.PROCESSING)
        job_id JobStatus.FAILED (by rw [hjobP]; rfl)] at hC
      exact JobStatus.noConfusion (Option.some.inj hC)
    · rw [if_neg hrE, hjobP]
      dsimp only
      have hnostagP : ∀ s ∈ (update_status db job_id JobStatus.PROCESSING).stagings,
          s.jobId ≠ job_id := by
        intro s hs
        rw [update_status_stagings] at hs
        intro hc
        apply hsr
        rw [has_staging_iff]
        intro hnil
        have hmemg : s ∈ get_staging_by_job db job_id := by
          unfold get_staging_by_job
          exact List.mem_filter.mpr ⟨hs, by rw [beq_iff_eq]; exact hc⟩
        rw [hnil] at hmemg
        cases hmemg
      have hgen2 : ∀ (dup : List String) (oexist : Option (List String)),
          jobStatusOf (initialWithExist (update_status db job_id JobStatus.PROCESSING)
            job_id dup oexist rows) job_id = some JobStatus.COMPLETED →
          ∀ s ∈ (initialWithExist (update_status db job_id JobStatus.PROCESSING)
              job_id dup oexist rows).stagings,
            s.jobId = job_id →
            s.status = StagingStatus.SUCCESS ∨ s.status = StagingStatus.DISCARD := by
        intro dup oexist
        cases oexist with
        | none =>
            unfold initialWithExist
            dsimp only
            intro hC
            exfalso
            rw [jobStatusOf_update_status_self
              (update_status db job_id JobStatus.PROCESSING) job_id JobStatus.FAILED
              (by rw [hjobP]; rfl)] at hC
            exact JobStatus.noConfusion (Option.some.inj hC)
        | some exist =>
            unfold initialWithExist
            dsimp only
            exact initialFinish_outcome (update_status db job_id JobStatus.PROCESSING)
              job_id dup exist rows { job with status := JobStatus.PROCESSING }
              hidsP hjobP hnostagP
      exact hgen2 _ _

/-- C1: counterexample to the claim's resolution half.  Reprocessing the C1
scenario (one DISCARD staging row, one never-resolved Issue linked to it)
ends with the job COMPLETED while its Issue is still unresolved — the pass
consolidates instead of going to NEEDS_REVIEW. -/
theorem claim_C1_counterexample :
    jobStatusOf (process_job c1db 1 []) 1 = some JobStatus.COMPLETED ∧
    ∃ i ∈ (process_job c1db 1 []).issues, i.jobId = 1 ∧ i.resolved = false := by
  constructor
  · decide
  · decide

/-- C1: witness instantiating the amended theorem on the S2 fixture. -/
theorem claim_C1_witness :
    ((s2db0.stagings.map (fun x => x.id)).Nodup ∧
     get_by_id s2db0 1 = some s2job0 ∧
     s2job0.status ≠ JobStatus.COMPLETED) ∧
    (jobStatusOf (process_job s2db0 1 s2rows) 1 = some JobStatus.COMPLETED →
      ∀ s ∈ (process_job s2db0 1 s2rows).stagings, s.jobId = 1 →
        s.status = StagingStatus.SUCCESS ∨ s.status = StagingStatus.DISCARD) :=
  ⟨⟨by decide, by decide, by decide⟩,
   claim_C1 s2db0 1 s2rows s2job0 (by decide) (by decide) (by decide)⟩

end Ingest

